import Mathlib

/-!
# Verification of the agentils repository

Shallow embedding of `src/agentils/utils.py` and `src/agentils/main.py`.

* `PyData` models the (acyclic) Python value universe handled by
  `Utils.string_to_dict` / `Utils.dict_to_string`: `None`, `bool`, `int`,
  `str`, `list`, `dict` (string-keyed), plus a non-JSON-serializable leaf
  (`objv`, standing for e.g. a `set` or function object).  Floating-point
  values and non-string dictionary keys are outside the model (floats are
  not statable in a shallow embedding); numeric literals with a fraction
  or exponent part therefore yield a model-level parse error.
* The serializer models CPython `json.dumps(d, indent=2)` (default
  `ensure_ascii=True`, separators `(',', ': ')`, insertion order).
* The parser models CPython `json.loads` (strict mode: raw control
  characters in strings rejected; whitespace ` \t\n\r`; literal prefixes
  `true`/`false`/`null`; no leading zeros; `Extra data` after the value).
  Deviations, each documented at the definition: error messages carry no
  line/column positions; the constants `NaN`/`Infinity` and lone
  surrogate escapes are not representable (`Char` admits only Unicode
  scalar values) and are rejected.
* Reference (cyclic) structure, which an inductive value cannot express,
  is modelled separately by a heap (`RefNode`) for the circular-reference
  behaviour of `json.dumps`.
* The decorator `AgentsUtils.execute_llm_with_tools` is embedded as a
  function of an oracle `Backend` (client construction, config-object
  construction and the generate call, each allowed to raise), returning
  the call's outcome together with the list of observable backend events.
-/

namespace Agentils

/-- Acyclic Python values in scope of the serialization helper. `objv` is a
value `json.dumps` rejects with a `TypeError` (e.g. a set). -/
inductive PyData where
  | null : PyData
  | boolv (b : Bool) : PyData
  | intv (n : Int) : PyData
  | strv (s : String) : PyData
  | listv (xs : List PyData) : PyData
  | dictv (kvs : List (String × PyData)) : PyData
  | objv (descr : String) : PyData
deriving Repr

/-- Serializable primitive values, the scope of the round-trip claim. -/
inductive Prim where
  | null : Prim
  | boolv (b : Bool) : Prim
  | intv (n : Int) : Prim
  | strv (s : String) : Prim
deriving Repr

def Prim.toData : Prim → PyData
  | .null => .null
  | .boolv b => .boolv b
  | .intv n => .intv n
  | .strv s => .strv s

/-- A flat string-keyed mapping of primitives, as a `PyData` dictionary. -/
def dictOfPrim (m : List (String × Prim)) : PyData :=
  .dictv (m.map (fun kv => (kv.1, kv.2.toData)))

/-! ## Characters and digits -/

/-- The backtick character (0x60), written by code point. -/
def btChar : Char := Char.ofNat 96

def isDigitCh (ch : Char) : Bool := '0' ≤ ch && ch ≤ '9'

/-- Lowercase hexadecimal digit character for `d < 16` (as `'%x' %` does). -/
def hexDigitCh (d : Nat) : Char :=
  if d < 10 then Char.ofNat ('0'.toNat + d) else Char.ofNat ('a'.toNat + d - 10)

/-- Value of one hexadecimal digit character (either case accepted). -/
def hexValCh (c : Char) : Option Nat :=
  let n := c.toNat
  if 48 ≤ n ∧ n ≤ 57 then some (n - 48)
  else if 97 ≤ n ∧ n ≤ 102 then some (n - 87)
  else if 65 ≤ n ∧ n ≤ 70 then some (n - 55)
  else none

/-- The four hex digits of `n < 0x10000`, most significant first
(`'\u%04x' % n`). -/
def hex4Of (n : Nat) : List Char :=
  [hexDigitCh (n / 4096 % 16), hexDigitCh (n / 256 % 16),
   hexDigitCh (n / 16 % 16), hexDigitCh (n % 16)]

/-- Decimal digit characters of `n`, most significant first, accumulated.
Structural on `fuel`; any `fuel > n` is enough, since `n / 10 < n` for
positive `n`. -/
def decDigitsAux : Nat → Nat → List Char → List Char
  | 0, _, acc => acc
  | fuel + 1, n, acc =>
    if n < 10 then Char.ofNat ('0'.toNat + n % 10) :: acc
    else decDigitsAux fuel (n / 10) (Char.ofNat ('0'.toNat + n % 10) :: acc)

def decDigits (n : Nat) : List Char := decDigitsAux (n + 1) n []

/-- Decimal form of a Python `int` (`repr`): optional minus, then digits. -/
def intChars (i : Int) : List Char :=
  (if i < 0 then ['-'] else []) ++ decDigits i.natAbs

/-! ## The serializer: `json.dumps(d, indent=2)` (`ensure_ascii=True`) -/

/-- The JSON escape of one character under `ensure_ascii=True`: printable
ASCII other than `"` and `\` is literal; `\b \t \n \f \r` have short forms;
every other code point becomes `\uXXXX`, non-BMP ones as a surrogate pair. -/
def escCh (c : Char) : List Char :=
  if c = '"' then ['\\', '"']
  else if c = '\\' then ['\\', '\\']
  else if c = Char.ofNat 8 then ['\\', 'b']
  else if c = '\t' then ['\\', 't']
  else if c = '\n' then ['\\', 'n']
  else if c = Char.ofNat 12 then ['\\', 'f']
  else if c = '\r' then ['\\', 'r']
  else if 0x20 ≤ c.toNat && c.toNat ≤ 0x7e then [c]
  else if c.toNat < 0x10000 then '\\' :: 'u' :: hex4Of c.toNat
  else
    '\\' :: 'u' :: hex4Of (0xd800 + (c.toNat - 0x10000) / 0x400) ++
      ('\\' :: 'u' :: hex4Of (0xdc00 + (c.toNat - 0x10000) % 0x400))

/-- The escaped body of a string (what goes between the quotes). -/
def escBody (l : List Char) : List Char := l.flatMap escCh

/-- A quoted, escaped JSON string literal. -/
def quoteStr (s : String) : List Char := '"' :: escBody s.data ++ ['"']

/-- `'\n'` plus the two-space indentation of nesting level `lvl`. -/
def nlIndent (lvl : Nat) : List Char := '\n' :: List.replicate (2 * lvl) ' '

/-- `mapM` over `Except`, kept structural so concrete runs reduce. -/
def exceptMap {α β ε : Type} (f : α → Except ε β) : List α → Except ε (List β)
  | [] => .ok []
  | a :: as0 =>
    match f a with
    | .error e => .error e
    | .ok b =>
      match exceptMap f as0 with
      | .error e => .error e
      | .ok bs => .ok (b :: bs)

/-- One value as `json.dumps(·, indent=2)` prints it at nesting level `lvl`.
Structural on `fuel`, which any call sets above the value's depth. Containers
put each item on its own line at level `lvl + 1` and close at level `lvl`;
empty containers print inline. A non-serializable leaf is the `TypeError`. -/
def serializeVal : Nat → Nat → PyData → Except String (List Char)
  | 0, _, _ => .error "serializer fuel exhausted (model artifact)"
  | _ + 1, _, .null => .ok ['n', 'u', 'l', 'l']
  | _ + 1, _, .boolv true => .ok ['t', 'r', 'u', 'e']
  | _ + 1, _, .boolv false => .ok ['f', 'a', 'l', 's', 'e']
  | _ + 1, _, .intv n => .ok (intChars n)
  | _ + 1, _, .strv s => .ok (quoteStr s)
  | _ + 1, _, .objv descr =>
    .error ("Object of type " ++ descr ++ " is not JSON serializable")
  | fuel + 1, lvl, .listv xs =>
    match xs with
    | [] => .ok ['[', ']']
    | _ :: _ =>
      match exceptMap (fun x =>
          match serializeVal fuel (lvl + 1) x with
          | .error e => .error e
          | .ok v => .ok (nlIndent (lvl + 1) ++ v)) xs with
      | .error e => .error e
      | .ok items => .ok ('[' :: (List.intercalate [','] items ++ nlIndent lvl ++ [']']))
  | fuel + 1, lvl, .dictv kvs =>
    match kvs with
    | [] => .ok ['{', '}']
    | _ :: _ =>
      match exceptMap (fun kv =>
          match serializeVal fuel (lvl + 1) kv.2 with
          | .error e => .error e
          | .ok v => .ok (nlIndent (lvl + 1) ++ quoteStr kv.1 ++ ':' :: ' ' :: v)) kvs with
      | .error e => .error e
      | .ok items => .ok ('{' :: (List.intercalate [','] items ++ nlIndent lvl ++ ['}']))

mutual

/-- Nesting depth of a value: scalars are 0, a container one more than its
deepest element. Bounds the recursion of `serializeVal`. -/
def pyDepth : PyData → Nat
  | .null => 0
  | .boolv _ => 0
  | .intv _ => 0
  | .strv _ => 0
  | .objv _ => 0
  | .listv xs => 1 + pyDepthList xs
  | .dictv kvs => 1 + pyDepthKvs kvs

/-- Deepest element of a list of values. -/
def pyDepthList : List PyData → Nat
  | [] => 0
  | x :: xs => max (pyDepth x) (pyDepthList xs)

/-- Deepest value of a key/value list. -/
def pyDepthKvs : List (String × PyData) → Nat
  | [] => 0
  | kv :: kvs => max (pyDepth kv.2) (pyDepthKvs kvs)

end

/-- `json.dumps(d, indent=2)`: fails exactly on non-serializable leaves
(the fuel `pyDepth d + 1` exceeds the nesting the serializer descends). -/
def dumps (d : PyData) : Except String String :=
  match serializeVal (pyDepth d + 1) 0 d with
  | .error e => .error e
  | .ok l => .ok (String.mk l)

/-! ## Reference-structured values and the circular-reference check

An inductive value cannot be cyclic, so the behaviour of `json.dumps` on a
self-referential dictionary is modelled on an explicit heap: a node may
refer to any heap index, and the serializer keeps the CPython `markers`
path (a container already on the current path raises
`ValueError("Circular reference detected")`; only container nodes are
marked, and a marker is dropped when its container is done — hence markers
= the current path). -/

/-- A raised Python exception, by class. -/
inductive PyExc where
  | typeError (msg : String) : PyExc
  | valueError (msg : String) : PyExc
deriving Repr, DecidableEq

/-- A heap node: a Python value whose container children are heap indices. -/
inductive RefNode where
  | rnull : RefNode
  | rbool (b : Bool) : RefNode
  | rint (n : Int) : RefNode
  | rstr (s : String) : RefNode
  | rlist (xs : List Nat) : RefNode
  | rdict (kvs : List (String × Nat)) : RefNode
  | robj (descr : String) : RefNode
deriving Repr

/-- `json.dumps(·, indent=2)` over the heap, with the `markers` cycle check.
Output layout as in `serializeVal`. Structural on `fuel`; the path length
cannot exceed the number of distinct heap indices before the marker check
fires, so `heap.length + 1` is enough. -/
def serializeRef (heap : List RefNode) : Nat → Nat → List Nat → Nat →
    Except PyExc (List Char)
  | 0, _, _, _ => .error (.typeError "serializer fuel exhausted (model artifact)")
  | fuel + 1, lvl, markers, ref =>
    match heap[ref]? with
    | none => .error (.typeError "dangling reference (model artifact)")
    | some .rnull => .ok ['n', 'u', 'l', 'l']
    | some (.rbool true) => .ok ['t', 'r', 'u', 'e']
    | some (.rbool false) => .ok ['f', 'a', 'l', 's', 'e']
    | some (.rint n) => .ok (intChars n)
    | some (.rstr s) => .ok (quoteStr s)
    | some (.robj descr) =>
      .error (.typeError ("Object of type " ++ descr ++ " is not JSON serializable"))
    | some (.rlist xs) =>
      if markers.contains ref then .error (.valueError "Circular reference detected")
      else
        match xs with
        | [] => .ok ['[', ']']
        | _ :: _ =>
          match exceptMap (fun x =>
              match serializeRef heap fuel (lvl + 1) (ref :: markers) x with
              | .error e => .error e
              | .ok v => .ok (nlIndent (lvl + 1) ++ v)) xs with
          | .error e => .error e
          | .ok items => .ok ('[' :: (List.intercalate [','] items ++ nlIndent lvl ++ [']']))
    | some (.rdict kvs) =>
      if markers.contains ref then .error (.valueError "Circular reference detected")
      else
        match kvs with
        | [] => .ok ['{', '}']
        | _ :: _ =>
          match exceptMap (fun kv =>
              match serializeRef heap fuel (lvl + 1) (ref :: markers) kv.2 with
              | .error e => .error e
              | .ok v => .ok (nlIndent (lvl + 1) ++ quoteStr kv.1 ++ ':' :: ' ' :: v)) kvs with
          | .error e => .error e
          | .ok items => .ok ('{' :: (List.intercalate [','] items ++ nlIndent lvl ++ ['}']))

/-- `Utils.dict_to_string` on a heap value: `except TypeError` turns a
`TypeError` into the error string, but a `ValueError` (circular reference)
is not caught and propagates to the caller. -/
def dictToStringRef (heap : List RefNode) (ref : Nat) : Except PyExc String :=
  match serializeRef heap (heap.length + 1) 0 [] ref with
  | .ok l => .ok (String.mk l)
  | .error (.typeError m) => .ok ("Error: Invalid dictionary format: " ++ m)
  | .error (.valueError m) => .error (.valueError m)

/-! ## The parser: `json.loads` -/

/-- JSON inter-token whitespace (`' \t\n\r'`). -/
def isJsonWs (c : Char) : Bool := c = ' ' || c = '\t' || c = '\n' || c = '\r'

def jSkipWs : List Char → List Char
  | [] => []
  | c :: cs => if isJsonWs c then jSkipWs cs else c :: cs

/-- The character named by a shorthand escape (`BACKSLASH` table). -/
def unescCh (e0 : Char) : Option Char :=
  if e0 = '"' then some e0
  else if e0 = '\\' then some e0
  else if e0 = '/' then some e0
  else if e0 = 'b' then some (Char.ofNat 8)
  else if e0 = 'f' then some (Char.ofNat 12)
  else if e0 = 'n' then some '\n'
  else if e0 = 'r' then some '\r'
  else if e0 = 't' then some '\t'
  else none

/-- Decode one escape sequence (the input starts after the backslash):
shorthand escapes, `\uXXXX`, and surrogate-pair recombination. Deviation: a
lone surrogate escape, which CPython keeps as a lone-surrogate `str`
character, has no Unicode-scalar `Char` and is rejected here. -/
def decodeEsc : List Char → Except String (Char × List Char)
  | 'u' :: a :: b :: c2 :: d :: rest2 =>
    match hexValCh a, hexValCh b, hexValCh c2, hexValCh d with
    | some va, some vb, some vc, some vd =>
      let n := ((va * 16 + vb) * 16 + vc) * 16 + vd
      if 0xd800 ≤ n && n < 0xdc00 then
        match rest2 with
        | '\\' :: 'u' :: e :: f :: g :: h :: rest3 =>
          match hexValCh e, hexValCh f, hexValCh g, hexValCh h with
          | some ve, some vf, some vg, some vh =>
            let n2 := ((ve * 16 + vf) * 16 + vg) * 16 + vh
            if 0xdc00 ≤ n2 && n2 < 0xe000 then
              .ok (Char.ofNat (0x10000 + (n - 0xd800) * 0x400 + (n2 - 0xdc00)), rest3)
            else .error "lone surrogate escape (outside model)"
          | _, _, _, _ => .error "Invalid \\uXXXX escape"
        | _ => .error "lone surrogate escape (outside model)"
      else if 0xdc00 ≤ n && n < 0xe000 then .error "lone surrogate escape (outside model)"
      else .ok (Char.ofNat n, rest2)
    | _, _, _, _ => .error "Invalid \\uXXXX escape"
  | e :: rest2 =>
    match unescCh e with
    | some ch => .ok (ch, rest2)
    | none => .error "Invalid \\escape"
  | [] => .error "Unterminated string"

/-- String-body scanner after the opening quote (`py_scanstring`, strict
mode): raw control characters rejected, escapes via `decodeEsc`. Structural
on `fuel`; every step consumes at least one character, so `length + 1` is
enough. -/
def parseStrAux : Nat → List Char → List Char → Except String (String × List Char)
  | 0, _, _ => .error "parser fuel exhausted (model artifact)"
  | fuel + 1, acc, l =>
    match l with
    | [] => .error "Unterminated string"
    | c :: rest =>
      if c = '"' then .ok (String.mk acc.reverse, rest)
      else if c = '\\' then
        match decodeEsc rest with
        | .ok (ch, rest2) => parseStrAux fuel (ch :: acc) rest2
        | .error e => .error e
      else if c.toNat < 0x20 then .error "Invalid control character"
      else parseStrAux fuel (c :: acc) rest

/-- The longest digit run at the head of the input, and the rest. -/
def spanDigits : List Char → List Char × List Char
  | [] => ([], [])
  | c :: cs =>
    if isDigitCh c then
      match spanDigits cs with
      | (ds, r) => (c :: ds, r)
    else ([], c :: cs)

/-- Numeric value of a digit run. -/
def digitsVal (ds : List Char) : Nat :=
  ds.foldl (fun acc0 ch => acc0 * 10 + (ch.toNat - '0'.toNat)) 0

/-- Finish an integer literal of value `n` (sign `neg`), rejecting a
fraction/exponent part (a Python `float`, outside the model). -/
def parseNumTail (neg : Bool) (n : Nat) (r : List Char) : Except String (PyData × List Char) :=
  match r with
  | c :: _ =>
    if c = '.' || c = 'e' || c = 'E' then .error "float literals (outside model)"
    else .ok (.intv (if neg then -(n : Int) else (n : Int)), r)
  | [] => .ok (.intv (if neg then -(n : Int) else (n : Int)), [])

/-- The digits of a numeric literal after the optional sign (`NUMBER_RE`):
`0`, or a nonzero leading digit and its run (no leading zeros). -/
def parseNumBody (neg : Bool) : List Char → Except String (PyData × List Char)
  | '0' :: r1 => parseNumTail neg 0 r1
  | c :: r1 =>
    if isDigitCh c then
      match spanDigits r1 with
      | (ds, r2) => parseNumTail neg (digitsVal (c :: ds)) r2
    else .error "Expecting value"
  | [] => .error "Expecting value"

/-- A numeric literal: optional minus, then digits. -/
def parseNum (l : List Char) : Except String (PyData × List Char) :=
  match l with
  | '-' :: l1 => parseNumBody true l1
  | _ => parseNumBody false l

/-- One-or-more object members, entered at the (whitespace-skipped) position
of a key; `pv` parses one value. Structural on `fuel`. -/
def membersLoop (pv : List Char → Except String (PyData × List Char)) :
    Nat → List Char → Except String (List (String × PyData) × List Char)
  | 0, _ => .error "parser fuel exhausted (model artifact)"
  | fuel + 1, l =>
    match l with
    | '"' :: u0 =>
      match parseStrAux (u0.length + 1) [] u0 with
      | .error e => .error e
      | .ok (key0, u1) =>
        match jSkipWs u1 with
        | ':' :: u2 =>
          match pv (jSkipWs u2) with
          | .error e => .error e
          | .ok (val0, u3) =>
            match jSkipWs u3 with
            | ',' :: u4 =>
              match membersLoop pv fuel (jSkipWs u4) with
              | .error e => .error e
              | .ok (tailMs, u5) => .ok ((key0, val0) :: tailMs, u5)
            | '}' :: u4 => .ok ([(key0, val0)], u4)
            | _ => .error "Expecting ',' delimiter"
        | _ => .error "Expecting ':' delimiter"
    | _ => .error "Expecting property name enclosed in double quotes"

/-- One-or-more array elements, entered at the (whitespace-skipped) position
of a value; `pv` parses one value. Structural on `fuel`. -/
def elemsLoop (pv : List Char → Except String (PyData × List Char)) :
    Nat → List Char → Except String (List PyData × List Char)
  | 0, _ => .error "parser fuel exhausted (model artifact)"
  | fuel + 1, l =>
    match pv l with
    | .error e => .error e
    | .ok (v, r) =>
      match jSkipWs r with
      | ',' :: r2 =>
        match elemsLoop pv fuel (jSkipWs r2) with
        | .ok (vs, r3) => .ok (v :: vs, r3)
        | .error e => .error e
      | ']' :: r2 => .ok ([v], r2)
      | _ => .error "Expecting ',' delimiter"

/-- One JSON value at the head of the input (leading whitespace already
skipped by the caller, as in CPython's scanner). Deviation: the non-standard
constants `NaN`/`Infinity`/`-Infinity`, which CPython accepts as floats, are
outside the model and fall to `"Expecting value"`. -/
def parseValue : Nat → List Char → Except String (PyData × List Char)
  | 0, _ => .error "parser fuel exhausted (model artifact)"
  | fuel + 1, l =>
    match l with
    | '{' :: r =>
      match jSkipWs r with
      | '}' :: r2 => .ok (.dictv [], r2)
      | r2 =>
        match membersLoop (parseValue fuel) fuel r2 with
        | .ok (ms, r3) => .ok (.dictv ms, r3)
        | .error e => .error e
    | '[' :: r =>
      match jSkipWs r with
      | ']' :: r2 => .ok (.listv [], r2)
      | r2 =>
        match elemsLoop (parseValue fuel) fuel r2 with
        | .ok (vs, r3) => .ok (.listv vs, r3)
        | .error e => .error e
    | '"' :: r =>
      match parseStrAux (r.length + 1) [] r with
      | .ok (s, r1) => .ok (.strv s, r1)
      | .error e => .error e
    | 't' :: 'r' :: tr =>
      match tr with
      | 'u' :: 'e' :: rT => .ok (.boolv true, rT)
      | _ => .error "Expecting value"
    | 'f' :: 'a' :: fr =>
      match fr with
      | 'l' :: 's' :: 'e' :: rF => .ok (.boolv false, rF)
      | _ => .error "Expecting value"
    | 'n' :: 'u' :: nr =>
      match nr with
      | 'l' :: 'l' :: rN => .ok (.null, rN)
      | _ => .error "Expecting value"
    | c :: r =>
      if c = '-' || isDigitCh c then parseNum (c :: r) else .error "Expecting value"
    | [] => .error "Expecting value"

/-- `json.loads` on a character list: skip whitespace, one value, then only
whitespace may remain (else `Extra data`). The fuel `length + 1` exceeds
the nesting depth of any parse, since every level consumes a bracket. -/
def loadsL (l : List Char) : Except String PyData :=
  match parseValue (l.length + 1) (jSkipWs l) with
  | .error e => .error e
  | .ok (v, rest) =>
    match jSkipWs rest with
    | [] => .ok v
    | _ => .error "Extra data"

/-! ## `str.replace` and `str.strip` -/

/-- One pass of `str.replace`, left to right, non-overlapping. Structural on
`fuel`; `length + 1` is enough for any non-empty pattern. -/
def replaceCore (pat repl : List Char) : Nat → List Char → List Char
  | 0, l => l
  | _ + 1, [] => []
  | fuel + 1, c :: cs =>
    if pat.isPrefixOf (c :: cs) then
      repl ++ replaceCore pat repl fuel (List.drop pat.length (c :: cs))
    else c :: replaceCore pat repl fuel cs

/-- Python `s.replace(pat, repl)` (for a non-empty pattern). -/
def pyReplace (pat repl l : List Char) : List Char :=
  replaceCore pat repl (l.length + 1) l

/-- ASCII whitespace stripped by `str.strip()` (the inputs at issue are
ASCII-delimited, so the non-ASCII whitespace Python also strips is moot). -/
def isPyWs (c : Char) : Bool :=
  c = ' ' || c = '\t' || c = '\n' || c = '\r' || c = Char.ofNat 11 || c = Char.ofNat 12

/-- Python `s.strip()`. -/
def pyStrip (l : List Char) : List Char :=
  ((l.dropWhile isPyWs).reverse.dropWhile isPyWs).reverse

/-- The fence `'```python'` (backticks written by code point). -/
def fencePy : List Char := [btChar, btChar, btChar, 'p', 'y', 't', 'h', 'o', 'n']

/-- The fence `'```'`. -/
def fence3 : List Char := [btChar, btChar, btChar]

end Agentils

namespace Agentils.Utils

/-- `Utils.dict_to_string`: `json.dumps(d, indent=2)`, with a `TypeError`
caught and turned into the `"Error: Invalid dictionary format: ..."` string.
(The acyclic model has no `ValueError` path; see the `RefNode` heap model for
circular references, where `ValueError` is *not* caught.) -/
def dict_to_string (d : PyData) : String :=
  match dumps d with
  | .ok s => s
  | .error e => "Error: Invalid dictionary format: " ++ e

/-- `Utils.string_to_dict`: drop every occurrence of `'```python'`, then of
`'```'`, strip surrounding whitespace, and `json.loads` the remainder; a
`JSONDecodeError` becomes the `{"error": "Invalid string format: ..."}`
mapping. Total: every string input yields a value. -/
def string_to_dict (s : String) : PyData :=
  let l := pyStrip (pyReplace fence3 [] (pyReplace fencePy [] s.data))
  match loadsL l with
  | .ok v => v
  | .error e => .dictv [("error", .strv ("Invalid string format: " ++ e))]

end Agentils.Utils

namespace Agentils

/-! ## Tool schema derivation: `AgentsUtils.create_function_tool`

The slice of the SDK's `types` used by `main.py`: a property `Schema`
carries a type tag and description; the parameters `Schema` is an `OBJECT`
with named properties and a required-name list. A Python signature is
modelled as the data `inspect` exposes: parameter name, optional annotation
(`annot`), and whether a default exists. -/

inductive SchemaType where
  | STRING | INTEGER | NUMBER | BOOLEAN | ARRAY | OBJECT
deriving Repr, DecidableEq

/-- A type annotation as compared by `create_function_tool`: the six
recognized builtins, or anything else (including `str`, which the code does
not special-case — it is the default anyway). -/
inductive PyAnnot where
  | aint | afloat | abool | alist | adict | astr
  | aother (descr : String)
deriving Repr, DecidableEq

structure PyParam where
  name : String
  annot : Option PyAnnot
  hasDefault : Bool
deriving Repr, DecidableEq

/-- A callable as `inspect` sees it: name, `getdoc` result, parameters in
declaration order. -/
structure PyFunction where
  name : String
  docstring : Option String
  params : List PyParam
deriving Repr, DecidableEq

structure PropSchema where
  type : SchemaType
  description : String
deriving Repr, DecidableEq

structure ParamsSchema where
  type : SchemaType
  properties : List (String × PropSchema)
  required : List String
deriving Repr, DecidableEq

structure FunctionDeclaration where
  name : String
  description : String
  parameters : ParamsSchema
deriving Repr, DecidableEq

structure Tool where
  function_declarations : List FunctionDeclaration
deriving Repr, DecidableEq

/-- The `if/elif` annotation-to-type ladder of `create_function_tool`:
`param_type = 'STRING'` unless the annotation is exactly one of
`int`, `float`, `bool`, `list`, `dict`. -/
def annotSchemaType : Option PyAnnot → SchemaType
  | some .aint => .INTEGER
  | some .afloat => .NUMBER
  | some .abool => .BOOLEAN
  | some .alist => .ARRAY
  | some .adict => .OBJECT
  | some .astr => .STRING
  | some (.aother _) => .STRING
  | none => .STRING

/-- `AgentsUtils.create_function_tool`: loop over the signature's
parameters skipping any named `self`; each kept parameter contributes one
property (type from the annotation ladder, description `"Parameter <name>"`)
and, when it has no default, its name to `required`; description is
`inspect.getdoc(func) or f"Function {func.__name__}"`. -/
def create_function_tool (f : PyFunction) : Tool :=
  let doc := match f.docstring with
    | some d => if d = "" then "Function " ++ f.name else d
    | none => "Function " ++ f.name
  let kept := f.params.filter (fun p => p.name ≠ "self")
  let properties := kept.map (fun p =>
    (p.name, PropSchema.mk (annotSchemaType p.annot) ("Parameter " ++ p.name)))
  let required := (kept.filter (fun p => !p.hasDefault)).map (fun p => p.name)
  { function_declarations := [{
      name := f.name
      description := doc
      parameters := { type := .OBJECT, properties := properties, required := required } }] }

/-! ## The decorator: `AgentsUtils.execute_llm_with_tools`

The wrapper returned by the decorator is embedded as a function of:
* the decoration-time options (`DecoratorOpts`, with the decorator's
  keyword defaults),
* an oracle `Backend` supplying the three external operations that can
  raise (`genai.Client(...)`, `types.GenerateContentConfig(...)`, and
  `client.models.generate_content(...)` returning `response.text`),
* the outcome of calling the wrapped function (`funcRes`), and
* the environment variables.

It returns the call's outcome — `Except.error` is an exception raised to
the caller, `Except.ok` a returned value — paired with the list of backend
events that occurred, in order (used to state "no client constructed",
"generate called zero times", and what config the generate call got).
Temperature is a Python float; only its presence ever matters here, so its
value is modelled as a rational. -/

/-- Function-calling config: `AutomaticFunctionCallingConfig(
maximum_remote_calls=...)` or `AutomaticFunctionCallingConfig(disable=True)`. -/
inductive Afc where
  | enabled (maximum_remote_calls : Int) : Afc
  | disabled : Afc
deriving Repr, DecidableEq

inductive OutputMode where
  | json | text
deriving Repr, DecidableEq

/-- The `config_params` dictionary: a field is `some` exactly when the code
put the key in the dictionary. -/
structure ConfigParams where
  tools : Option (List Tool) := none
  automatic_function_calling : Option Afc := none
  system_instruction : Option String := none
  temperature : Option Rat := none
  max_output_tokens : Option Int := none
  response_mime_type : Option String := none
deriving Repr, DecidableEq

/-- Truthiness of the `config_params` dictionary: empty iff no key was set. -/
def ConfigParams.isEmptyCp (cp : ConfigParams) : Bool :=
  cp.tools.isNone && cp.automatic_function_calling.isNone &&
  cp.system_instruction.isNone && cp.temperature.isNone &&
  cp.max_output_tokens.isNone && cp.response_mime_type.isNone

/-- The decorator's keyword options, with its defaults. -/
structure DecoratorOpts where
  model_name : String := "gemini-2.0-flash-001"
  output : OutputMode := .json
  api_key : Option String := none
  tools : Option (List Tool) := none
  automatic_function_calling : Bool := true
  max_function_calls : Int := 10
  system_instruction : Option String := none
  temperature : Option Rat := none
  max_output_tokens : Option Int := none
deriving Repr, DecidableEq

/-- The two credential environment variables (`none` = unset). -/
structure Env where
  google_api_key : Option String := none
  gemini_api_key : Option String := none
deriving Repr, DecidableEq

/-- Python truthiness of an optional string: `None` and `""` are falsy. -/
def truthyStr : Option String → Option String
  | some s => if s = "" then none else some s
  | none => none

/-- `api_key or os.getenv('GOOGLE_API_KEY') or os.getenv('GEMINI_API_KEY')`,
then the `if not key` guard: the first truthy value, if any. -/
def resolveKey (explicitKey : Option String) (env : Env) : Option String :=
  match truthyStr explicitKey with
  | some s => some s
  | none =>
    match truthyStr env.google_api_key with
    | some s => some s
    | none => truthyStr env.gemini_api_key

/-- A value returned by the wrapper: parsed data in `json` mode, a raw
string in `text` mode. -/
inductive PyVal where
  | vjson (v : PyData) : PyVal
  | vstr (s : String) : PyVal
deriving Repr

/-- Observable interactions with the backend, in order. -/
inductive BackendEvent where
  | clientConstructed (key : String) : BackendEvent
  | generateCalled (model : String) (contents : String)
      (config : Option ConfigParams) : BackendEvent
deriving Repr

/-- The external SDK boundary. `Except.error` models the operation raising
(with `str(e)` as payload). -/
structure Backend where
  clientCtor : String → Except String Unit
  configCtor : ConfigParams → Except String Unit
  generate : String → String → Option ConfigParams → Except String String

/-- The conditional `config_params` assembly of the wrapper body:
`if tools:` (truthy — non-`None` and non-empty) also sets
`automatic_function_calling`; `if system_instruction:` (truthy);
`if temperature is not None:`; `if max_output_tokens is not None:`;
and `response_mime_type` exactly in `json` output mode. -/
def buildConfigParams (o : DecoratorOpts) : ConfigParams :=
  let cp : ConfigParams := {}
  let cp := match o.tools with
    | some (t :: ts) =>
      { cp with
        tools := some (t :: ts)
        automatic_function_calling := some
          (if o.automatic_function_calling then Afc.enabled o.max_function_calls
           else Afc.disabled) }
    | _ => cp
  let cp := match o.system_instruction with
    | some si => if si = "" then cp else { cp with system_instruction := some si }
    | none => cp
  let cp := match o.temperature with
    | some t => { cp with temperature := some t }
    | none => cp
  let cp := match o.max_output_tokens with
    | some mt => { cp with max_output_tokens := some mt }
    | none => cp
  if o.output = .json then { cp with response_mime_type := some "application/json" } else cp

/-- The `except Exception` conversion: `"Error executing LLM: <details>"`,
wrapped in an `{"error": ...}` mapping in `json` mode, bare in `text` mode. -/
def errVal (output : OutputMode) (e : String) : PyVal :=
  match output with
  | .json => .vjson (.dictv [("error", .strv ("Error executing LLM: " ++ e))])
  | .text => .vstr ("Error executing LLM: " ++ e)

/-- Response post-processing: `Utils.string_to_dict(response.text)` in
`json` mode, `response.text` unchanged in `text` mode. -/
def formatResp (output : OutputMode) (t : String) : PyVal :=
  match output with
  | .json => .vjson (Utils.string_to_dict t)
  | .text => .vstr t

def apiKeyRequiredMsg : String :=
  "API key required. Set GOOGLE_API_KEY environment variable or pass api_key parameter."

/-- One invocation of the function wrapped by
`AgentsUtils.execute_llm_with_tools(...)`. Order as in the source: resolve
the key (raise `ValueError` if falsy, with no backend interaction), build
the client, call the wrapped function, and only then enter the `try` block
(config assembly, config-object construction when `config_params` is
non-empty, the generate call with the config omitted when empty, response
formatting); an exception inside the `try` is returned as `errVal`. -/
def execute_llm_with_tools (B : Backend) (o : DecoratorOpts)
    (funcRes : Except String String) (env : Env) :
    Except String PyVal × List BackendEvent :=
  match resolveKey o.api_key env with
  | none => (.error apiKeyRequiredMsg, [])
  | some key =>
    match B.clientCtor key with
    | .error e => (.error e, [.clientConstructed key])
    | .ok _ =>
      match funcRes with
      | .error e => (.error e, [.clientConstructed key])
      | .ok text_output =>
        let cp := buildConfigParams o
        let cfgRes : Except String (Option ConfigParams) :=
          if cp.isEmptyCp then .ok none
          else
            match B.configCtor cp with
            | .error e => .error e
            | .ok _ => .ok (some cp)
        match cfgRes with
        | .error e => (.ok (errVal o.output e), [.clientConstructed key])
        | .ok cfg =>
          match B.generate o.model_name text_output cfg with
          | .error e =>
            (.ok (errVal o.output e),
             [.clientConstructed key, .generateCalled o.model_name text_output cfg])
          | .ok respText =>
            (.ok (formatResp o.output respText),
             [.clientConstructed key, .generateCalled o.model_name text_output cfg])

/-- `AgentsUtils.execute_llm`: delegates to `execute_llm_with_tools` with
`tools=None` and without passing the function-calling options (which
therefore keep their defaults). -/
def execute_llm (B : Backend) (model_name : String) (output : OutputMode)
    (api_key : Option String) (system_instruction : Option String)
    (temperature : Option Rat) (max_output_tokens : Option Int)
    (funcRes : Except String String) (env : Env) :
    Except String PyVal × List BackendEvent :=
  execute_llm_with_tools B
    { model_name := model_name
      output := output
      api_key := api_key
      tools := none
      system_instruction := system_instruction
      temperature := temperature
      max_output_tokens := max_output_tokens }
    funcRes env

/-! ## Support definitions for the round-trip analysis

The fence stripping of `string_to_dict` makes the round trip sensitive to
backtick runs, so occurrences of `'```'` are tracked by a three-state
automaton over the current run of consecutive backticks. -/

/-- Run the backtick automaton from run-state `k` (consecutive backticks
seen): `none` once three in a row occur, else `some` of the final state. -/
def btRun : List Char → Nat → Option Nat
  | [], k => some k
  | c :: cs, k =>
    if c = btChar then (if 2 ≤ k then none else btRun cs (k + 1)) else btRun cs 0

/-- A primitive is fence-safe when, if it is a string, it has no three
consecutive backticks. -/
def primBtOk : Prim → Bool
  | .strv s => (btRun s.data 0).isSome
  | _ => true

/-- The characters `json.dumps(·, indent=2)` emits for a primitive. -/
def primChars : Prim → List Char
  | .null => ['n', 'u', 'l', 'l']
  | .boolv true => ['t', 'r', 'u', 'e']
  | .boolv false => ['f', 'a', 'l', 's', 'e']
  | .intv n => intChars n
  | .strv s => quoteStr s

/-- One member line of a flat mapping at nesting level 1. -/
def flatItem (kv : String × Prim) : List Char :=
  nlIndent 1 ++ quoteStr kv.1 ++ ':' :: ' ' :: primChars kv.2

/-- The member lines of a flat mapping, comma-separated. -/
def flatBody (m : List (String × Prim)) : List Char :=
  List.intercalate [','] (m.map flatItem)

/-- What `json.dumps(·, indent=2)` prints for a flat mapping. -/
def printedFlat (m : List (String × Prim)) : List Char :=
  match m with
  | [] => ['{', '}']
  | _ :: _ => '{' :: (flatBody m ++ nlIndent 0 ++ ['}'])

/-- The parser's view of a flat mapping's members: the input from the first
key's opening quote up to and including the closing `'}'`, then `rest`. -/
def flatMembersFrom : List (String × Prim) → List Char → List Char
  | [], rest => rest
  | [(k, v)] , rest =>
    '"' :: (escBody k.data ++ '"' :: ':' :: ' ' :: (primChars v ++ '\n' :: '}' :: rest))
  | (k, v) :: m', rest =>
    '"' :: (escBody k.data ++ '"' :: ':' :: ' ' ::
      (primChars v ++ ',' :: '\n' :: ' ' :: ' ' :: flatMembersFrom m' rest))

/-- A remainder that cannot extend a numeric literal: empty or headed by
none of digit, `.`, `e`, `E`. -/
def numStop : List Char → Bool
  | [] => true
  | c :: _ => !(isDigitCh c || c = '.' || c = 'e' || c = 'E')

/-- Empty, or headed by a non-backtick character (the entry state of the
backtick automaton is then irrelevant). -/
def headNonBt : List Char → Prop
  | [] => True
  | c :: _ => c ≠ btChar

/-- A backtick-automaton segment: starts off a backtick run and survives the
automaton from state 0. Segments compose by appending. -/
def btSeg (l : List Char) : Prop :=
  headNonBt l ∧ (btRun l 0).isSome = true

/-- A backend whose three operations all succeed. -/
def okBackend : Backend where
  clientCtor := fun _ => .ok ()
  configCtor := fun _ => .ok ()
  generate := fun _ _ _ => .ok "null"

/-- A backend whose generate call raises. -/
def downBackend : Backend where
  clientCtor := fun _ => .ok ()
  configCtor := fun _ => .ok ()
  generate := fun _ _ _ => .error "backend down"

/-- A backend whose client construction raises. -/
def brokenClientBackend : Backend where
  clientCtor := fun _ => .error "boom"
  configCtor := fun _ => .ok ()
  generate := fun _ _ _ => .ok "null"

end Agentils

/-! # Theorems -/

namespace Agentils

/-- A positive number is a successor (shared fuel-shape helper). -/
theorem existsSucc {k : Nat} (hk : 0 < k) : ∃ j, k = j + 1 := ⟨k - 1, by omega⟩

/-- Helper: `truthyStr` of an absent value. -/
theorem truthyStr_none : truthyStr none = none := rfl

/-! ## C3: missing credential fails before any backend interaction -/

/-- C3: with no explicit `api_key` and neither credential environment
variable truthy, the wrapped call raises the `ValueError` (an
`Except.error`, not a returned value) and the event trace is empty: no
client is constructed and the generate operation is called zero times. -/
theorem c3_missing_credential_fails_before_backend
    (B : Backend) (o : DecoratorOpts) (funcRes : Except String String) (env : Env)
    (hk : o.api_key = none)
    (hg : truthyStr env.google_api_key = none)
    (hm : truthyStr env.gemini_api_key = none) :
    execute_llm_with_tools B o funcRes env = (.error apiKeyRequiredMsg, []) := by
  have hres : resolveKey o.api_key env = none := by
    simp only [resolveKey, hk, truthyStr_none, hg, hm]
  simp only [execute_llm_with_tools, hres]

/-- C3 witness: default options, empty environment, a live backend. -/
theorem c3_witness :
    ((({} : DecoratorOpts).api_key = none) ∧
      truthyStr (({} : Env).google_api_key) = none ∧
      truthyStr (({} : Env).gemini_api_key) = none) ∧
    execute_llm_with_tools okBackend {} (.ok "prompt") {} = (.error apiKeyRequiredMsg, []) :=
  ⟨⟨rfl, rfl, rfl⟩,
   c3_missing_credential_fails_before_backend okBackend {} (.ok "prompt") {} rfl rfl rfl⟩

/-! ## C6: a prompt-function exception propagates unmodified -/

/-- C6: with a credential resolved and the client constructed, an exception
raised by the wrapped (prompt-construction) function propagates to the
caller unmodified — it is not caught, and not converted to an error value
(`Except.error e`, not `.ok (errVal ...)`). -/
theorem c6_user_function_exception_propagates
    (B : Backend) (o : DecoratorOpts) (env : Env) (k e : String)
    (hk : resolveKey o.api_key env = some k)
    (hc : B.clientCtor k = .ok ()) :
    execute_llm_with_tools B o (.error e) env = (.error e, [.clientConstructed k]) := by
  simp only [execute_llm_with_tools, hk, hc]

/-- C6 witness: an explicit key and a failing prompt function. -/
theorem c6_witness :
    (resolveKey (some "k") {} = some "k" ∧ okBackend.clientCtor "k" = .ok ()) ∧
    execute_llm_with_tools okBackend { api_key := some "k" } (.error "bug in prompt fn") {} =
      (.error "bug in prompt fn", [.clientConstructed "k"]) :=
  ⟨⟨rfl, rfl⟩,
   c6_user_function_exception_propagates okBackend { api_key := some "k" } {}
     "k" "bug in prompt fn" rfl rfl⟩

/-! ## C2: which exceptions the `try` block converts to a value

The `try` block of the wrapper begins *after* client construction (and
after the wrapped function is called), so an exception raised while
constructing the client is **not** caught: it propagates to the caller.
The claim that it is converted to an error value is therefore false; the
conversion does apply to exceptions raised during config-object
construction and during the generate call. -/

/-- C2 counterexample: with a credential present, a backend whose client
constructor raises makes the wrapped call raise (`Except.error "boom"`) —
the exception is not converted into an `{"error": ...}` value, contradicting
the claim that exceptions during client construction are caught. -/
theorem c2_counterexample_client_ctor_raises :
    execute_llm_with_tools brokenClientBackend { api_key := some "k" } (.ok "prompt") {} =
      (.error "boom", [.clientConstructed "k"]) := rfl

/-- C2 amended: after credential resolution, client construction and the
wrapped-function call succeed, an exception raised while building the
config object (when `config_params` is non-empty) or during the generate
call is caught and returned as the value `"Error executing LLM: <details>"`
— wrapped as `{"error": ...}` in `json` output mode, bare in `text` mode —
never raised. -/
theorem c2_amended_try_block_errors_converted
    (B : Backend) (o : DecoratorOpts) (t : String) (env : Env) (k e : String)
    (hk : resolveKey o.api_key env = some k)
    (hc : B.clientCtor k = .ok ()) :
    ((buildConfigParams o).isEmptyCp = false →
      B.configCtor (buildConfigParams o) = .error e →
      (execute_llm_with_tools B o (.ok t) env).1 = .ok (errVal o.output e)) ∧
    (B.configCtor (buildConfigParams o) = .ok () →
      (∀ cfg, B.generate o.model_name t cfg = .error e) →
      (execute_llm_with_tools B o (.ok t) env).1 = .ok (errVal o.output e)) ∧
    (errVal .json e = .vjson (.dictv [("error", .strv ("Error executing LLM: " ++ e))]) ∧
      errVal .text e = .vstr ("Error executing LLM: " ++ e)) := by
  refine ⟨?_, ?_, rfl, rfl⟩
  · intro hne herr
    simp only [execute_llm_with_tools, hk, hc, hne, Bool.false_eq_true, if_false, herr]
  · intro hok hgen
    by_cases hcp : (buildConfigParams o).isEmptyCp
    · simp only [execute_llm_with_tools, hk, hc, hcp, if_true, hgen none]
    · simp only [Bool.not_eq_true] at hcp
      simp only [execute_llm_with_tools, hk, hc, hcp, Bool.false_eq_true, if_false, hok,
        hgen (some (buildConfigParams o))]

/-- C2 witness: structured mode with a generate call that raises yields the
`{"error": "Error executing LLM: ..."}` mapping. -/
theorem c2_witness :
    (resolveKey (some "k") {} = some "k" ∧ downBackend.clientCtor "k" = .ok ()) ∧
    (execute_llm_with_tools downBackend { api_key := some "k" } (.ok "prompt") {}).1 =
      .ok (.vjson (.dictv [("error", .strv "Error executing LLM: backend down")])) :=
  ⟨⟨rfl, rfl⟩, by
    have h := (c2_amended_try_block_errors_converted downBackend { api_key := some "k" }
      "prompt" {} "k" "backend down" rfl rfl).2.1 rfl (fun _ => rfl)
    exact h⟩

/-! ## C10: `execute_llm` = `execute_llm_with_tools` with `tools=None` -/

/-- C10: for every combination of options, backend, wrapped-function outcome
and environment, `execute_llm` behaves identically to
`execute_llm_with_tools` with the same options, `tools := none`, and *any*
values of the function-calling options (which are dead when no tools are
supplied). -/
theorem c10_execute_llm_refines_with_tools
    (B : Backend) (model_name : String) (output : OutputMode)
    (api_key : Option String) (system_instruction : Option String)
    (temperature : Option Rat) (max_output_tokens : Option Int)
    (funcRes : Except String String) (env : Env)
    (afc : Bool) (mfc : Int) :
    execute_llm B model_name output api_key system_instruction temperature
        max_output_tokens funcRes env =
      execute_llm_with_tools B
        { model_name := model_name
          output := output
          api_key := api_key
          tools := none
          automatic_function_calling := afc
          max_function_calls := mfc
          system_instruction := system_instruction
          temperature := temperature
          max_output_tokens := max_output_tokens }
        funcRes env := rfl

/-! ## C4: `dict_to_string` on non-serializable values -/

/-- C4 counterexample: on a self-referential dictionary (`d = {}; d["a"] = d`,
modelled as heap node 0 referring to itself), `json.dumps` raises
`ValueError("Circular reference detected")`; the function catches only
`TypeError`, so the call raises instead of returning the
`"Error: Invalid dictionary format..."` string — the claim's "never raises"
fails exactly at its own cyclic example. -/
theorem c4_counterexample_cycle_raises :
    dictToStringRef [RefNode.rdict [("a", 0)]] 0 =
      .error (.valueError "Circular reference detected") := rfl

/-- C4 amended: for every (acyclic) value whose serialization fails — a
`TypeError` for an unsupported type, e.g. a set — `dict_to_string` returns
the string `"Error: Invalid dictionary format: <details>"` (in particular a
string with that prefix) rather than raising; a value containing a cyclic
structure instead raises an uncaught `ValueError`. -/
theorem c4_amended_type_error_converted
    (d : PyData) (e : String) (h : dumps d = .error e) :
    Utils.dict_to_string d = "Error: Invalid dictionary format: " ++ e ∧
    ("Error: Invalid dictionary format").data <+: (Utils.dict_to_string d).data := by
  have h1 : Utils.dict_to_string d = "Error: Invalid dictionary format: " ++ e := by
    rw [Utils.dict_to_string, h]
  refine ⟨h1, ?_⟩
  rw [h1]
  refine ⟨[':', ' '] ++ e.data, ?_⟩
  show ("Error: Invalid dictionary format").data ++ ([':', ' '] ++ e.data) =
    ("Error: Invalid dictionary format: " ++ e).data
  rw [String.data_append]
  rfl

/-- C4 witness: a set-valued entry fails with the `TypeError` message and
the error-string conversion. -/
theorem c4_witness :
    dumps (.dictv [("a", .objv "set")]) =
      .error "Object of type set is not JSON serializable" ∧
    Utils.dict_to_string (.dictv [("a", .objv "set")]) =
      "Error: Invalid dictionary format: Object of type set is not JSON serializable" :=
  ⟨rfl,
   (c4_amended_type_error_converted (.dictv [("a", .objv "set")])
     "Object of type set is not JSON serializable" rfl).1⟩

/-! ## C5: parse failures become `{"error": "Invalid string format: ..."}` -/

/-- C5: whenever the (fence-stripped, whitespace-stripped) input fails to
parse, `string_to_dict` returns — never raises — a mapping with the single
key `"error"` whose message carries the `"Invalid string format"` prefix.
(`string_to_dict` is total by construction: the only failure the model's
`json.loads` produces is the `JSONDecodeError` the code catches.) -/
theorem c5_parse_failure_error_mapping
    (s : String) (e : String)
    (h : loadsL (pyStrip (pyReplace fence3 [] (pyReplace fencePy [] s.data))) = .error e) :
    Utils.string_to_dict s = .dictv [("error", .strv ("Invalid string format: " ++ e))] ∧
    ("Invalid string format").data <+: ("Invalid string format: " ++ e).data := by
  constructor
  · rw [Utils.string_to_dict]
    rw [h]
  · refine ⟨[':', ' '] ++ e.data, ?_⟩
    show ("Invalid string format").data ++ ([':', ' '] ++ e.data) =
      ("Invalid string format: " ++ e).data
    rw [String.data_append]
    rfl

/-- C5 witness: the input `"not json"` yields the error mapping. -/
theorem c5_witness :
    loadsL (pyStrip (pyReplace fence3 [] (pyReplace fencePy [] ("not json").data))) =
      .error "Expecting value" ∧
    Utils.string_to_dict "not json" =
      .dictv [("error", .strv "Invalid string format: Expecting value")] :=
  ⟨rfl, (c5_parse_failure_error_mapping "not json" "Expecting value" rfl).1⟩

/-! ## C9: non-object JSON inputs are returned as parsed, not as mappings -/

/-- C9: a valid JSON input whose top-level value is not an object comes back
as the parsed non-mapping value — a list for `"[1, 2]"`, a number for
`"3"` — so the function's result is not always a mapping. -/
theorem c9_non_mapping_results :
    Utils.string_to_dict "[1, 2]" = .listv [.intv 1, .intv 2] ∧
    Utils.string_to_dict "3" = .intv 3 ∧
    (∀ kvs, Utils.string_to_dict "[1, 2]" ≠ .dictv kvs) ∧
    (∀ kvs, Utils.string_to_dict "3" ≠ .dictv kvs) := by
  refine ⟨rfl, rfl, ?_, ?_⟩
  · intro kvs h
    rw [show Utils.string_to_dict "[1, 2]" = .listv [.intv 1, .intv 2] from rfl] at h
    exact absurd h (by simp)
  · intro kvs h
    rw [show Utils.string_to_dict "3" = .intv 3 from rfl] at h
    exact absurd h (by simp)

/-! ## C7: the derived tool descriptor -/

/-- Helper: a name-keyed association list built from parameters with
pairwise-distinct names finds exactly the image of the matching parameter. -/
theorem lookup_param_map (g : PyParam → PropSchema) :
    ∀ (l : List PyParam), (l.map PyParam.name).Nodup →
      ∀ p ∈ l, (l.map (fun q => (q.name, g q))).lookup p.name = some (g p) := by
  intro l
  induction l with
  | nil => intro _ p hp; exact absurd hp (List.not_mem_nil p)
  | cons q t ih =>
    intro hnd p hp
    simp only [List.map_cons, List.nodup_cons] at hnd
    rcases List.mem_cons.mp hp with rfl | hpt
    · simp [List.lookup]
    · have hne : p.name ≠ q.name := by
        intro he
        exact hnd.1 (he ▸ List.mem_map_of_mem PyParam.name hpt)
      have hb : (p.name == q.name) = false := by simpa using hne
      simp only [List.map_cons, List.lookup, hb]
      exact ih hnd.2 p hpt

/-- Helper: membership of a parameter's name in the mapped filter, under
pairwise-distinct names. -/
theorem mem_name_map_filter (pr : PyParam → Bool) :
    ∀ (l : List PyParam), (l.map PyParam.name).Nodup →
      ∀ p ∈ l, (p.name ∈ (l.filter pr).map PyParam.name ↔ pr p = true) := by
  intro l hnd p hp
  constructor
  · intro hmem
    obtain ⟨q, hq, hqn⟩ := List.mem_map.mp hmem
    obtain ⟨hql, hqp⟩ := List.mem_filter.mp hq
    have : q = p := List.inj_on_of_nodup_map hnd hql hp hqn
    exact this ▸ hqp
  · intro hpr
    exact List.mem_map_of_mem PyParam.name (List.mem_filter.mpr ⟨hp, hpr⟩)

/-- Helper: the annotation ladder agrees with the claim's six-entry table. -/
theorem annotSchemaType_eq_table (a : Option PyAnnot) :
    annotSchemaType a =
      (match a with
       | some .aint => SchemaType.INTEGER
       | some .afloat => SchemaType.NUMBER
       | some .abool => SchemaType.BOOLEAN
       | some .alist => SchemaType.ARRAY
       | some .adict => SchemaType.OBJECT
       | _ => SchemaType.STRING) := by
  cases a with
  | none => rfl
  | some b => cases b <;> rfl

/-- C7: for a function with pairwise-distinct parameter names, the produced
tool has a single declaration whose description is the docstring (or
`"Function <name>"` when the docstring is absent), whose object schema has
one property per non-`self` parameter — kind per the fixed annotation table,
defaulting to string — and whose `required` list holds exactly the names of
the non-`self` parameters without a default. -/
theorem c7_create_function_tool_descriptor (f : PyFunction)
    (hnd : (f.params.map PyParam.name).Nodup) :
    ∃ fd, (create_function_tool f).function_declarations = [fd] ∧
      fd.name = f.name ∧
      (∀ d, f.docstring = some d → d ≠ "" → fd.description = d) ∧
      (f.docstring = none → fd.description = "Function " ++ f.name) ∧
      fd.parameters.type = .OBJECT ∧
      fd.parameters.properties.length =
        (f.params.filter (fun p => p.name ≠ "self")).length ∧
      (∀ p ∈ f.params, p.name ≠ "self" →
        fd.parameters.properties.lookup p.name =
          some ⟨(match p.annot with
                 | some .aint => SchemaType.INTEGER
                 | some .afloat => SchemaType.NUMBER
                 | some .abool => SchemaType.BOOLEAN
                 | some .alist => SchemaType.ARRAY
                 | some .adict => SchemaType.OBJECT
                 | _ => SchemaType.STRING), "Parameter " ++ p.name⟩ ∧
        (p.name ∈ fd.parameters.required ↔ p.hasDefault = false)) := by
  refine ⟨_, rfl, rfl, ?_, ?_, rfl, ?_, ?_⟩
  · intro d hd hne
    simp only [create_function_tool, hd, if_neg hne]
  · intro hd
    simp only [create_function_tool, hd]
  · simp only [create_function_tool, List.length_map]
  · intro p hp hself
    have hkept : p ∈ f.params.filter (fun q => q.name ≠ "self") :=
      List.mem_filter.mpr ⟨hp, by simpa using hself⟩
    have hndk : ((f.params.filter (fun q => q.name ≠ "self")).map PyParam.name).Nodup :=
      ((List.filter_sublist f.params).map PyParam.name).nodup hnd
    constructor
    · have hlk := lookup_param_map
        (fun q => PropSchema.mk (annotSchemaType q.annot) ("Parameter " ++ q.name))
        (f.params.filter (fun q => q.name ≠ "self")) hndk p hkept
      simp only [create_function_tool]
      rw [hlk]
      refine congrArg some ?_
      show PropSchema.mk (annotSchemaType p.annot) ("Parameter " ++ p.name) = _
      rw [annotSchemaType_eq_table]
    · simp only [create_function_tool]
      have hmem := mem_name_map_filter (fun q => !q.hasDefault)
        (f.params.filter (fun q => q.name ≠ "self")) hndk p hkept
      simpa using hmem

/-- C7 witness: `get_weather(location: str)`, docstring `"Get weather"`, no
default — one required string property. -/
theorem c7_witness :
    (((PyFunction.mk "get_weather" (some "Get weather")
        [PyParam.mk "location" (some .astr) false]).params.map PyParam.name).Nodup) ∧
    (∃ fd, (create_function_tool (PyFunction.mk "get_weather" (some "Get weather")
        [PyParam.mk "location" (some .astr) false])).function_declarations = [fd] ∧
      fd.name = "get_weather" ∧
      (∀ d, ((PyFunction.mk "get_weather" (some "Get weather")
          [PyParam.mk "location" (some .astr) false]).docstring = some d) → d ≠ "" →
          fd.description = d) ∧
      ((PyFunction.mk "get_weather" (some "Get weather")
          [PyParam.mk "location" (some .astr) false]).docstring = none →
          fd.description = "Function " ++ "get_weather") ∧
      fd.parameters.type = .OBJECT ∧
      fd.parameters.properties.length =
        ([PyParam.mk "location" (some .astr) false].filter (fun p => p.name ≠ "self")).length ∧
      (∀ p ∈ [PyParam.mk "location" (some .astr) false], p.name ≠ "self" →
        fd.parameters.properties.lookup p.name =
          some ⟨(match p.annot with
                 | some .aint => SchemaType.INTEGER
                 | some .afloat => SchemaType.NUMBER
                 | some .abool => SchemaType.BOOLEAN
                 | some .alist => SchemaType.ARRAY
                 | some .adict => SchemaType.OBJECT
                 | _ => SchemaType.STRING), "Parameter " ++ p.name⟩ ∧
        (p.name ∈ fd.parameters.required ↔ p.hasDefault = false))) :=
  ⟨by simp,
   c7_create_function_tool_descriptor
     (PyFunction.mk "get_weather" (some "Get weather")
       [PyParam.mk "location" (some .astr) false]) (by simp)⟩

/-! ## C8: conditional config assembly and omission -/

/-- Helper: the assembled `config_params`, field by field. -/
theorem buildConfigParams_eq (o : DecoratorOpts) :
    buildConfigParams o =
      { tools := match o.tools with
          | some (t :: ts) => some (t :: ts)
          | _ => none
        automatic_function_calling := match o.tools with
          | some (_ :: _) => some (if o.automatic_function_calling
              then Afc.enabled o.max_function_calls else Afc.disabled)
          | _ => none
        system_instruction := truthyStr o.system_instruction
        temperature := o.temperature
        max_output_tokens := o.max_output_tokens
        response_mime_type :=
          if o.output = .json then some "application/json" else none } := by
  rcases o with ⟨mn, out, ak, tls, afc, mfc, si, tmp, mot⟩
  rcases tls with _ | ⟨_ | ⟨t, ts⟩⟩ <;>
    rcases si with _ | s <;>
    rcases tmp with _ | tv <;>
    rcases mot with _ | mv <;>
    cases out <;>
    simp only [buildConfigParams, truthyStr] <;>
    first
      | rfl
      | (by_cases hs : s = "" <;> simp [hs])

/-- C8: with the call reaching the backend, the generate operation receives
the assembled config exactly when some `config_params` key was set (else
the config argument is omitted — `none`); a `tools` key is present only
for a supplied non-empty tool list, a `system_instruction` key only for a
supplied non-empty instruction, and the `temperature` / `max_output_tokens`
keys mirror the supplied options exactly (in particular an explicit
`temperature=None` is never sent). When none of the four options is
supplied and output mode is `text` (so not even `response_mime_type` is
set), the generate call is made with no config at all. -/
theorem c8_conditional_config_assembly
    (B : Backend) (o : DecoratorOpts) (t : String) (env : Env) (k : String)
    (hk : resolveKey o.api_key env = some k)
    (hc : B.clientCtor k = .ok ())
    (hcfg : B.configCtor (buildConfigParams o) = .ok ()) :
    ((execute_llm_with_tools B o (.ok t) env).2 =
      [.clientConstructed k,
       .generateCalled o.model_name t
         (if (buildConfigParams o).isEmptyCp then none else some (buildConfigParams o))]) ∧
    ((buildConfigParams o).tools.isSome → ∃ ts, o.tools = some ts ∧ ts ≠ []) ∧
    ((buildConfigParams o).system_instruction.isSome →
      ∃ si, o.system_instruction = some si ∧ si ≠ "") ∧
    ((buildConfigParams o).temperature = o.temperature) ∧
    ((buildConfigParams o).max_output_tokens = o.max_output_tokens) ∧
    (((o.tools = none ∨ o.tools = some []) ∧ truthyStr o.system_instruction = none ∧
        o.temperature = none ∧ o.max_output_tokens = none ∧ o.output = .text) →
      (execute_llm_with_tools B o (.ok t) env).2 =
        [.clientConstructed k, .generateCalled o.model_name t none]) := by
  have htrace : (execute_llm_with_tools B o (.ok t) env).2 =
      [.clientConstructed k,
       .generateCalled o.model_name t
         (if (buildConfigParams o).isEmptyCp then none else some (buildConfigParams o))] := by
    by_cases hcp : (buildConfigParams o).isEmptyCp
    · simp only [execute_llm_with_tools, hk, hc, hcp, if_true]
      cases hg : B.generate o.model_name t none <;> simp
    · simp only [Bool.not_eq_true] at hcp
      simp only [execute_llm_with_tools, hk, hc, hcp, Bool.false_eq_true, if_false, hcfg]
      cases hg : B.generate o.model_name t (some (buildConfigParams o)) <;> simp
  refine ⟨htrace, ?_, ?_, ?_, ?_, ?_⟩
  · rw [buildConfigParams_eq]
    rcases ho : o.tools with _ | ⟨_ | ⟨a, b⟩⟩ <;> simp
  · rw [buildConfigParams_eq]
    rcases hs : o.system_instruction with _ | s
    · simp [truthyStr]
    · by_cases hse : s = "" <;> simp [truthyStr, hse]
  · rw [buildConfigParams_eq]
  · rw [buildConfigParams_eq]
  · rintro ⟨htl, hsi, htm, hmo, hout⟩
    have hemp : (buildConfigParams o).isEmptyCp = true := by
      rw [buildConfigParams_eq, ConfigParams.isEmptyCp]
      rcases htl with h | h <;> rw [h, hsi, htm, hmo, hout] <;> rfl
    rw [htrace, hemp]
    rfl

/-- C8 witness: no optional field and text output — the generate call is
made with the config argument omitted. -/
theorem c8_witness :
    (resolveKey (some "k") {} = some "k" ∧
      okBackend.clientCtor "k" = .ok () ∧
      okBackend.configCtor (buildConfigParams { api_key := some "k", output := .text }) =
        .ok ()) ∧
    (execute_llm_with_tools okBackend { api_key := some "k", output := .text }
        (.ok "p") {}).2 =
      [.clientConstructed "k", .generateCalled "gemini-2.0-flash-001" "p" none] :=
  ⟨⟨rfl, rfl, rfl⟩,
   (c8_conditional_config_assembly okBackend { api_key := some "k", output := .text }
     "p" {} "k" rfl rfl rfl).2.2.2.2.2
     ⟨Or.inl rfl, rfl, rfl, rfl, rfl⟩⟩

/-! ## C1: the round trip, part 1 — decimal digits -/

/-- The fuel of `decDigitsAux` is irrelevant once above `n`, and the
accumulator rides along on the right. -/
theorem decDigitsAux_acc : ∀ (n fuel : Nat) (acc : List Char), n < fuel →
    decDigitsAux fuel n acc = decDigits n ++ acc := by
  intro n
  induction n using Nat.strongRecOn with
  | ind n ih =>
    intro fuel acc hf
    obtain ⟨f, rfl⟩ := existsSucc (show 0 < fuel by omega)
    rw [decDigitsAux]
    by_cases h10 : n < 10
    · rw [if_pos h10, decDigits, decDigitsAux, if_pos h10, List.singleton_append]
    · have hdiv : n / 10 < n := Nat.div_lt_self (by omega) (by decide)
      rw [if_neg h10, ih (n / 10) hdiv f _ (by omega)]
      have hn : decDigits n = decDigits (n / 10) ++ [Char.ofNat ('0'.toNat + n % 10)] := by
        rw [decDigits, decDigitsAux, if_neg h10]
        exact ih (n / 10) hdiv n _ (by omega)
      rw [hn]
      simp

/-- One unfolding of `decDigits`, least-significant digit last. -/
theorem decDigits_unfold (n : Nat) :
    decDigits n =
      (if n < 10 then [] else decDigits (n / 10)) ++ [Char.ofNat ('0'.toNat + n % 10)] := by
  by_cases h10 : n < 10
  · rw [decDigits, decDigitsAux, if_pos h10, if_pos h10, List.nil_append]
  · rw [decDigits, decDigitsAux, if_neg h10, if_neg h10]
    exact decDigitsAux_acc (n / 10) n _ (by
      have := Nat.div_lt_self (show 0 < n by omega) (show 1 < 10 by omega)
      omega)

theorem decDigits_ne_nil (n : Nat) : decDigits n ≠ [] := by
  rw [decDigits_unfold]; simp

/-- The decimal digit character of `k < 10`: a digit, carrying `k`, and not
a backtick. -/
theorem digitCh_spec : ∀ k, k < 10 →
    isDigitCh (Char.ofNat ('0'.toNat + k)) = true ∧
    (Char.ofNat ('0'.toNat + k)).toNat - '0'.toNat = k ∧
    Char.ofNat ('0'.toNat + k) ≠ btChar := by decide

/-- The digit character of nonzero `k < 10` is not `'0'`. -/
theorem digitCh_ne_zero : ∀ k, k < 10 → 0 < k → Char.ofNat ('0'.toNat + k) ≠ '0' := by decide

theorem decDigits_all_digits (n : Nat) : ∀ c ∈ decDigits n, isDigitCh c = true := by
  induction n using Nat.strongRecOn with
  | ind n ih =>
    rw [decDigits_unfold]
    intro c hc
    rcases List.mem_append.mp hc with h | h
    · by_cases h10 : n < 10
      · simp [h10] at h
      · have hdec : n / 10 < n := Nat.div_lt_self (by omega) (by decide)
        exact ih _ hdec c (by simpa [h10] using h)
    · rw [List.mem_singleton] at h
      subst h
      exact (digitCh_spec (n % 10) (Nat.mod_lt _ (by omega))).1

/-- Reading the printed digits back gives the number. -/
theorem digitsVal_decDigits (n : Nat) : digitsVal (decDigits n) = n := by
  induction n using Nat.strongRecOn with
  | ind n ih =>
    rw [digitsVal, decDigits_unfold, List.foldl_append]
    by_cases hsmall : n < 10
    · simp only [List.foldl_cons, if_pos hsmall, List.foldl_nil]
      rw [(digitCh_spec (n % 10) (Nat.mod_lt _ (by omega))).2.1]
      omega
    · simp only [List.foldl_cons, if_neg hsmall, List.foldl_nil]
      have hdec : n / 10 < n := Nat.div_lt_self (by omega) (by decide)
      have h1 := ih _ hdec
      rw [digitsVal] at h1
      rw [h1, (digitCh_spec (n % 10) (Nat.mod_lt _ (by omega))).2.1]
      omega

/-- The leading printed digit of a positive number: a digit, not `'0'`. -/
theorem decDigits_head : ∀ n, 0 < n →
    ∃ c t, decDigits n = c :: t ∧ isDigitCh c = true ∧ c ≠ '0' := by
  intro n
  induction n using Nat.strongRecOn with
  | ind n ih =>
    intro hpos
    by_cases h10 : n < 10
    · rw [decDigits_unfold, if_pos h10, List.nil_append]
      have hmod : n % 10 = n := Nat.mod_eq_of_lt h10
      exact ⟨_, [], rfl, (digitCh_spec (n % 10) (Nat.mod_lt _ (by omega))).1,
        by rw [hmod]; exact digitCh_ne_zero n h10 hpos⟩
    · rw [decDigits_unfold, if_neg h10]
      have hdec : n / 10 < n := Nat.div_lt_self (by omega) (by decide)
      obtain ⟨c, t, hct, hd, h0⟩ := ih _ hdec (by omega)
      exact ⟨c, t ++ [Char.ofNat ('0'.toNat + n % 10)], by rw [hct]; simp, hd, h0⟩

/-! ## C1, part 2 — numeric literals parse back -/

theorem char_le_iff_toNat {a b : Char} : a ≤ b ↔ a.toNat ≤ b.toNat := by
  rw [Char.le_def, UInt32.le_def, BitVec.le_def]
  rfl

theorem isDigitCh_bounds {c : Char} (h : isDigitCh c = true) :
    48 ≤ c.toNat ∧ c.toNat ≤ 57 := by
  rw [isDigitCh, Bool.and_eq_true, decide_eq_true_eq, decide_eq_true_eq] at h
  exact ⟨char_le_iff_toNat.mp h.1, char_le_iff_toNat.mp h.2⟩

/-- A digit character is one of the ten digit literals. -/
theorem isDigitCh_enum {c : Char} (h : isDigitCh c = true) :
    c = '0' ∨ c = '1' ∨ c = '2' ∨ c = '3' ∨ c = '4' ∨
    c = '5' ∨ c = '6' ∨ c = '7' ∨ c = '8' ∨ c = '9' := by
  obtain ⟨h1, h2⟩ := isDigitCh_bounds h
  have hc : c = Char.ofNat c.toNat := (Char.ofNat_toNat c).symm
  have hk : c.toNat = 48 ∨ c.toNat = 49 ∨ c.toNat = 50 ∨ c.toNat = 51 ∨ c.toNat = 52 ∨
      c.toNat = 53 ∨ c.toNat = 54 ∨ c.toNat = 55 ∨ c.toNat = 56 ∨ c.toNat = 57 := by omega
  rcases hk with h'|h'|h'|h'|h'|h'|h'|h'|h'|h' <;> rw [hc, h'] <;> decide

theorem spanDigits_stop (l : List Char) (h : numStop l = true) : spanDigits l = ([], l) := by
  cases l with
  | nil => rfl
  | cons c t =>
    rw [numStop] at h
    have hd : isDigitCh c = false := by
      rcases hb : isDigitCh c
      · rfl
      · rw [hb] at h; simp at h
    rw [spanDigits, if_neg (by simp [hd])]

theorem spanDigits_run (ds : List Char) (hds : ∀ c ∈ ds, isDigitCh c = true) :
    ∀ r, spanDigits r = ([], r) → spanDigits (ds ++ r) = (ds, r) := by
  induction ds with
  | nil => intro r hr; simpa using hr
  | cons c t ih =>
    intro r hr
    have hc : isDigitCh c = true := hds c (List.mem_cons_self c t)
    have ht := ih (fun x hx => hds x (List.mem_cons_of_mem c hx)) r hr
    rw [List.cons_append, spanDigits, if_pos (by simp [hc]), ht]

/-- `parseNumBody` on a nonzero leading digit takes the digit-run branch. -/
theorem parseNumBody_pos (neg : Bool) (c : Char) (r1 : List Char)
    (hc0 : c ≠ '0') (hcd : isDigitCh c = true) :
    parseNumBody neg (c :: r1) =
      (match spanDigits r1 with
       | (ds, r2) => parseNumTail neg (digitsVal (c :: ds)) r2) := by
  rcases isDigitCh_enum hcd with h9|h9|h9|h9|h9|h9|h9|h9|h9|h9 <;> subst h9
  · exact absurd rfl hc0
  all_goals rfl

/-- `parseNum` on a digit head has no sign. -/
theorem parseNum_digit_head (c : Char) (l : List Char) (hcd : isDigitCh c = true) :
    parseNum (c :: l) = parseNumBody false (c :: l) := by
  rcases isDigitCh_enum hcd with h9|h9|h9|h9|h9|h9|h9|h9|h9|h9 <;> subst h9 <;> rfl

theorem parseNumTail_stop (neg : Bool) (n : Nat) (r : List Char) (h : numStop r = true) :
    parseNumTail neg n r = .ok (.intv (if neg then -(n : Int) else (n : Int)), r) := by
  cases r with
  | nil => rfl
  | cons c t =>
    rw [numStop, Bool.not_eq_true', Bool.or_eq_false_iff, Bool.or_eq_false_iff,
      Bool.or_eq_false_iff] at h
    obtain ⟨⟨⟨_, hdot⟩, he⟩, hE⟩ := h
    rw [parseNumTail, if_neg (by simp_all)]

/-- The integer codec round-trip: `parseNum` inverts `intChars` whenever the
remainder cannot extend the literal. -/
theorem parseNum_intChars (i : Int) (rest : List Char) (h : numStop rest = true) :
    parseNum (intChars i ++ rest) = .ok (.intv i, rest) := by
  have hstop : spanDigits rest = ([], rest) := spanDigits_stop rest h
  by_cases hneg : i < 0
  · have habs : 0 < i.natAbs := by omega
    obtain ⟨c, t, hct, hd, h0⟩ := decDigits_head i.natAbs habs
    have hshape : intChars i ++ rest = '-' :: (c :: (t ++ rest)) := by
      rw [intChars, if_pos hneg, hct]
      simp
    rw [hshape, parseNum, parseNumBody_pos true c (t ++ rest) h0 hd]
    have hspan : spanDigits (t ++ rest) = (t, rest) :=
      spanDigits_run t (fun x hx => decDigits_all_digits i.natAbs x (hct ▸ List.mem_cons_of_mem c hx))
        rest hstop
    rw [hspan]
    have hval : digitsVal (c :: t) = i.natAbs := by
      rw [← hct, digitsVal_decDigits]
    show parseNumTail true (digitsVal (c :: t)) rest = _
    rw [hval, parseNumTail_stop true i.natAbs rest h, if_pos rfl]
    have : -(i.natAbs : Int) = i := by omega
    rw [this]
  · by_cases h0 : i = 0
    · subst h0
      have hshape : intChars 0 ++ rest = '0' :: rest := by
        rw [intChars, if_neg (by omega), List.nil_append, decDigits_unfold, if_pos (by omega)]
        rfl
      rw [hshape, show parseNum ('0' :: rest) = parseNumBody false ('0' :: rest) from rfl,
        show parseNumBody false ('0' :: rest) = parseNumTail false 0 rest from rfl,
        parseNumTail_stop false 0 rest h]
      rfl
    · have habs : 0 < i.natAbs := by omega
      obtain ⟨c, t, hct, hd, hne0⟩ := decDigits_head i.natAbs habs
      have hshape : intChars i ++ rest = c :: (t ++ rest) := by
        rw [intChars, if_neg hneg, List.nil_append, hct]
        rfl
      rw [hshape, parseNum_digit_head c _ hd, parseNumBody_pos false c (t ++ rest) hne0 hd]
      have hspan : spanDigits (t ++ rest) = (t, rest) :=
        spanDigits_run t (fun x hx => decDigits_all_digits i.natAbs x (hct ▸ List.mem_cons_of_mem c hx))
          rest hstop
      rw [hspan]
      have hval : digitsVal (c :: t) = i.natAbs := by
        rw [← hct, digitsVal_decDigits]
      show parseNumTail false (digitsVal (c :: t)) rest = _
      rw [hval, parseNumTail_stop false i.natAbs rest h, if_neg (by simp)]
      have : (i.natAbs : Int) = i := by omega
      rw [this]

/-- A value whose input starts with a sign or digit parses as a number. -/
theorem parseValue_num_dispatch (f : Nat) (c : Char) (r : List Char)
    (hg : c = '-' ∨ isDigitCh c = true) :
    parseValue (f + 1) (c :: r) = parseNum (c :: r) := by
  rcases hg with rfl | hd
  · rfl
  · rcases isDigitCh_enum hd with h9|h9|h9|h9|h9|h9|h9|h9|h9|h9 <;> subst h9 <;> rfl

/-! ## C1, part 3 — string escaping parses back -/

theorem hexValCh_hexDigitCh : ∀ d, d < 16 → hexValCh (hexDigitCh d) = some d := by decide

/-- Every `Char` is a Unicode scalar value: below the surrogates or above
them and below 0x110000. -/
theorem char_scalar (c : Char) : c.toNat < 0xd800 ∨ (0xdfff < c.toNat ∧ c.toNat < 0x110000) := by
  have h := c.valid
  unfold UInt32.isValidChar Nat.isValidChar at h
  exact h

theorem hex4_recomb (n : Nat) (h : n < 65536) :
    ((n / 4096 % 16 * 16 + n / 256 % 16) * 16 + n / 16 % 16) * 16 + n % 16 = n := by omega

/-- Every escape produces at least one character. -/
theorem escCh_length_pos (c : Char) : 0 < (escCh c).length := by
  rw [escCh]
  split_ifs <;> simp [hex4Of]

theorem escBody_length_ge (l : List Char) : l.length ≤ (escBody l).length := by
  induction l with
  | nil => simp [escBody]
  | cons c t ih =>
    rw [escBody, List.flatMap_cons, List.length_append, ← escBody]
    have := escCh_length_pos c
    simp only [List.length_cons]
    omega

/-- A literal (unescaped) printable character is consumed as itself. -/
theorem parseStrAux_lit (c : Char) (f : Nat) (acc rest : List Char)
    (hq : c ≠ '"') (hb : c ≠ '\\') (hctl : ¬ c.toNat < 0x20) :
    parseStrAux (f + 1) acc (c :: rest) = parseStrAux f (c :: acc) rest := by
  simp only [parseStrAux]
  rw [if_neg hq, if_neg hb, if_neg hctl]

theorem parseStrAux_esc (f : Nat) (acc rest : List Char) :
    parseStrAux (f + 1) acc ('\\' :: rest) =
      (match decodeEsc rest with
       | .ok (ch, rest2) => parseStrAux f (ch :: acc) rest2
       | .error e => .error e) := rfl

/-- `decodeEsc` on a `\uXXXX` escape outside the surrogate ranges. -/
theorem decodeEsc_bmp (a b c2 d : Char) (va vb vc vd : Nat) (rest2 : List Char)
    (ha : hexValCh a = some va) (hb : hexValCh b = some vb)
    (hc : hexValCh c2 = some vc) (hd : hexValCh d = some vd)
    (hs1 : ¬ (0xd800 ≤ ((va * 16 + vb) * 16 + vc) * 16 + vd ∧
      ((va * 16 + vb) * 16 + vc) * 16 + vd < 0xdc00))
    (hs2 : ¬ (0xdc00 ≤ ((va * 16 + vb) * 16 + vc) * 16 + vd ∧
      ((va * 16 + vb) * 16 + vc) * 16 + vd < 0xe000)) :
    decodeEsc ('u' :: a :: b :: c2 :: d :: rest2) =
      .ok (Char.ofNat (((va * 16 + vb) * 16 + vc) * 16 + vd), rest2) := by
  simp only [decodeEsc, ha, hb, hc, hd]
  rw [if_neg (by simp only [Bool.and_eq_true, decide_eq_true_eq]; exact hs1),
    if_neg (by simp only [Bool.and_eq_true, decide_eq_true_eq]; exact hs2)]

/-- `decodeEsc` on a high/low surrogate escape pair. -/
theorem decodeEsc_pair (a b c2 d e2 f2 g2 h2 : Char) (va vb vc vd ve vf vg vh : Nat)
    (rest3 : List Char)
    (ha : hexValCh a = some va) (hb : hexValCh b = some vb)
    (hc : hexValCh c2 = some vc) (hd : hexValCh d = some vd)
    (he : hexValCh e2 = some ve) (hf : hexValCh f2 = some vf)
    (hg : hexValCh g2 = some vg) (hh : hexValCh h2 = some vh)
    (hs1 : 0xd800 ≤ ((va * 16 + vb) * 16 + vc) * 16 + vd ∧
      ((va * 16 + vb) * 16 + vc) * 16 + vd < 0xdc00)
    (hs2 : 0xdc00 ≤ ((ve * 16 + vf) * 16 + vg) * 16 + vh ∧
      ((ve * 16 + vf) * 16 + vg) * 16 + vh < 0xe000) :
    decodeEsc ('u' :: a :: b :: c2 :: d :: '\\' :: 'u' :: e2 :: f2 :: g2 :: h2 :: rest3) =
      .ok (Char.ofNat (0x10000 + (((va * 16 + vb) * 16 + vc) * 16 + vd - 0xd800) * 0x400 +
        (((ve * 16 + vf) * 16 + vg) * 16 + vh - 0xdc00)), rest3) := by
  simp only [decodeEsc, ha, hb, hc, hd]
  rw [if_pos (by simp only [Bool.and_eq_true, decide_eq_true_eq]; exact hs1)]
  simp only [he, hf, hg, hh]
  rw [if_pos (by simp only [Bool.and_eq_true, decide_eq_true_eq]; exact hs2)]

theorem parseStrAux_escCh (c : Char) (f : Nat) (acc rest : List Char) :
    parseStrAux (f + 1) acc (escCh c ++ rest) = parseStrAux f (c :: acc) rest := by
  by_cases h1 : c = '"'
  · subst h1; rfl
  by_cases h2 : c = '\\'
  · subst h2; rfl
  by_cases h3 : c = Char.ofNat 8
  · subst h3; rfl
  by_cases h4 : c = '\t'
  · subst h4; rfl
  by_cases h5 : c = '\n'
  · subst h5; rfl
  by_cases h6 : c = Char.ofNat 12
  · subst h6; rfl
  by_cases h7 : c = '\r'
  · subst h7; rfl
  rw [escCh, if_neg h1, if_neg h2, if_neg h3, if_neg h4, if_neg h5, if_neg h6, if_neg h7]
  by_cases h8 : 0x20 ≤ c.toNat ∧ c.toNat ≤ 0x7e
  · rw [if_pos (by simp [h8.1, h8.2])]
    exact parseStrAux_lit c f acc rest h1 h2 (by omega)
  · rw [if_neg (by simp only [Bool.and_eq_true, decide_eq_true_eq]; omega)]
    have hd1 : c.toNat / 4096 % 16 < 16 := Nat.mod_lt _ (by omega)
    have hd2 : c.toNat / 256 % 16 < 16 := Nat.mod_lt _ (by omega)
    have hd3 : c.toNat / 16 % 16 < 16 := Nat.mod_lt _ (by omega)
    have hd4 : c.toNat % 16 < 16 := Nat.mod_lt _ (by omega)
    by_cases h9 : c.toNat < 0x10000
    · rw [if_pos h9, hex4Of]
      simp only [List.cons_append]
      rw [parseStrAux_esc]
      have hrec := hex4_recomb c.toNat h9
      rw [decodeEsc_bmp _ _ _ _ _ _ _ _ _
        (hexValCh_hexDigitCh _ hd1) (hexValCh_hexDigitCh _ hd2)
        (hexValCh_hexDigitCh _ hd3) (hexValCh_hexDigitCh _ hd4)
        (by rw [hrec]; rcases char_scalar c with h | h <;> omega)
        (by rw [hrec]; rcases char_scalar c with h | h <;> omega)]
      rw [hrec, Char.ofNat_toNat]
      rfl
    · have hlt : c.toNat < 0x110000 := by
        rcases char_scalar c with h | h <;> omega
      rw [if_neg h9, hex4Of, hex4Of]
      simp only [List.cons_append, List.append_assoc, List.nil_append]
      have hq0 : (0xd800 + (c.toNat - 0x10000) / 0x400) < 65536 := by omega
      have hr0 : (0xdc00 + (c.toNat - 0x10000) % 0x400) < 65536 := by omega
      have he1 : (0xd800 + (c.toNat - 0x10000) / 0x400) / 4096 % 16 < 16 := Nat.mod_lt _ (by omega)
      have he2 : (0xd800 + (c.toNat - 0x10000) / 0x400) / 256 % 16 < 16 := Nat.mod_lt _ (by omega)
      have he3 : (0xd800 + (c.toNat - 0x10000) / 0x400) / 16 % 16 < 16 := Nat.mod_lt _ (by omega)
      have he4 : (0xd800 + (c.toNat - 0x10000) / 0x400) % 16 < 16 := Nat.mod_lt _ (by omega)
      have hf1 : (0xdc00 + (c.toNat - 0x10000) % 0x400) / 4096 % 16 < 16 := Nat.mod_lt _ (by omega)
      have hf2 : (0xdc00 + (c.toNat - 0x10000) % 0x400) / 256 % 16 < 16 := Nat.mod_lt _ (by omega)
      have hf3 : (0xdc00 + (c.toNat - 0x10000) % 0x400) / 16 % 16 < 16 := Nat.mod_lt _ (by omega)
      have hf4 : (0xdc00 + (c.toNat - 0x10000) % 0x400) % 16 < 16 := Nat.mod_lt _ (by omega)
      rw [parseStrAux_esc]
      have hrecA := hex4_recomb _ hq0
      have hrecB := hex4_recomb _ hr0
      rw [decodeEsc_pair _ _ _ _ _ _ _ _ _ _ _ _ _ _ _ _ _
        (hexValCh_hexDigitCh _ he1) (hexValCh_hexDigitCh _ he2)
        (hexValCh_hexDigitCh _ he3) (hexValCh_hexDigitCh _ he4)
        (hexValCh_hexDigitCh _ hf1) (hexValCh_hexDigitCh _ hf2)
        (hexValCh_hexDigitCh _ hf3) (hexValCh_hexDigitCh _ hf4)
        (by rw [hrecA]; omega) (by rw [hrecB]; omega)]
      rw [hrecA, hrecB]
      have harith : 0x10000 + ((0xd800 + (c.toNat - 0x10000) / 0x400) - 0xd800) * 0x400 +
          ((0xdc00 + (c.toNat - 0x10000) % 0x400) - 0xdc00) = c.toNat := by omega
      rw [harith, Char.ofNat_toNat]

/-- Parsing an escaped body stops exactly at the closing quote. -/
theorem parseStrAux_escBody (l : List Char) : ∀ (f : Nat) (acc rest : List Char),
    l.length < f →
    parseStrAux f acc (escBody l ++ '"' :: rest) = .ok (String.mk (acc.reverse ++ l), rest) := by
  induction l with
  | nil =>
    intro f acc rest hf
    obtain ⟨f', rfl⟩ := existsSucc (show 0 < f by omega)
    show parseStrAux (f' + 1) acc ('"' :: rest) = _
    simp only [parseStrAux]
    rw [if_pos trivial]
    simp
  | cons c t ih =>
    intro f acc rest hf
    obtain ⟨f', rfl⟩ := existsSucc (show 0 < f by omega)
    have hsh : escBody (c :: t) ++ '"' :: rest = escCh c ++ (escBody t ++ '"' :: rest) := by
      rw [escBody, escBody, List.flatMap_cons, List.append_assoc]
    rw [hsh, parseStrAux_escCh c f' acc _,
      ih f' (c :: acc) rest (by simp only [List.length_cons] at hf; omega)]
    simp

/-- The string codec round-trip at the value level. -/
theorem parseValue_quoteStr (s : String) (f : Nat) (rest : List Char) :
    parseValue (f + 1) (quoteStr s ++ rest) = .ok (.strv s, rest) := by
  have hshape : quoteStr s ++ rest = '"' :: (escBody s.data ++ '"' :: rest) := by
    rw [quoteStr]
    simp
  rw [hshape, parseValue]
  have hlen : s.data.length < (escBody s.data ++ '"' :: rest).length + 1 := by
    have := escBody_length_ge s.data
    simp only [List.length_append, List.length_cons]
    omega
  rw [parseStrAux_escBody s.data _ [] rest hlen]
  rfl

/-! ### C1, part 4: the backtick automaton and fence removal -/

theorem btRun_append (a b : List Char) : ∀ k,
    btRun (a ++ b) k = (btRun a k).bind (fun s => btRun b s) := by
  induction a with
  | nil => intro k; rfl
  | cons c t ih =>
    intro k
    by_cases hc : c = btChar
    · simp only [List.cons_append, btRun, if_pos hc]
      by_cases hk : 2 ≤ k
      · simp only [if_pos hk]; rfl
      · simp only [if_neg hk]; exact ih (k + 1)
    · simp only [List.cons_append, btRun, if_neg hc]; exact ih 0

theorem btRun_mono (l : List Char) : ∀ j k, j ≤ k →
    (btRun l k).isSome = true → (btRun l j).isSome = true := by
  induction l with
  | nil => intro j k _ _; rfl
  | cons c t ih =>
    intro j k hjk h
    rw [btRun] at h ⊢
    by_cases hc : c = btChar
    · rw [if_pos hc] at h ⊢
      by_cases hk : 2 ≤ k
      · rw [if_pos hk] at h; simp at h
      · rw [if_neg hk] at h
        rw [if_neg (show ¬ 2 ≤ j by omega)]
        exact ih (j + 1) (k + 1) (by omega) h
    · rw [if_neg hc] at h ⊢; exact h

theorem btRun_triple (t : List Char) (k : Nat) :
    btRun (btChar :: btChar :: btChar :: t) k = none := by
  by_cases hk : 2 ≤ k
  · rw [btRun, if_pos rfl, if_pos hk]
  · have hk01 : k = 0 ∨ k = 1 := by omega
    rcases hk01 with rfl | rfl <;> rfl

theorem btRun_tail {c : Char} {t : List Char}
    (h : (btRun (c :: t) 0).isSome = true) : (btRun t 0).isSome = true := by
  rw [btRun] at h
  by_cases hc : c = btChar
  · rw [if_pos hc, if_neg (show ¬ 2 ≤ 0 by omega)] at h
    exact btRun_mono t 0 1 (by omega) h
  · rw [if_neg hc] at h; exact h

theorem btRun_state_isSome (b : List Char) (hb : headNonBt b) (s : Nat) :
    (btRun b s).isSome = (btRun b 0).isSome := by
  cases b with
  | nil => rfl
  | cons c t => rw [btRun, btRun, if_neg hb, if_neg hb]

theorem btSeg_append {a b : List Char} (ha : btSeg a) (hb : btSeg b) :
    btSeg (a ++ b) := by
  obtain ⟨ha1, ha2⟩ := ha
  obtain ⟨hb1, hb2⟩ := hb
  refine ⟨?_, ?_⟩
  · cases a with
    | nil => exact hb1
    | cons c t => exact ha1
  · rw [btRun_append]
    obtain ⟨s, hs⟩ := Option.isSome_iff_exists.mp ha2
    rw [hs]
    show (btRun b s).isSome = true
    rw [btRun_state_isSome b hb1 s]
    exact hb2

theorem btRun_no_bt : ∀ (l : List Char), (∀ x ∈ l, x ≠ btChar) →
    ∀ k, (btRun l k).isSome = true := by
  intro l
  induction l with
  | nil => intro _ k; rfl
  | cons c t ih =>
    intro hall k
    rw [btRun, if_neg (hall c (by simp))]
    exact ih (fun x hx => hall x (by simp [hx])) 0

theorem btSeg_of_no_bt {l : List Char} (h : ∀ x ∈ l, x ≠ btChar) : btSeg l := by
  refine ⟨?_, btRun_no_bt l h 0⟩
  cases l with
  | nil => trivial
  | cons c t => exact h c (by simp)

theorem isPrefixOf_true : ∀ (pat l : List Char),
    pat.isPrefixOf l = true → ∃ u, pat ++ u = l := by
  intro pat
  induction pat with
  | nil => intro l _; exact ⟨l, rfl⟩
  | cons p ps ih =>
    intro l h
    cases l with
    | nil => simp [List.isPrefixOf] at h
    | cons c cs =>
      rw [List.isPrefixOf, Bool.and_eq_true] at h
      obtain ⟨u, hu⟩ := ih cs h.2
      exact ⟨u, by rw [List.cons_append, hu, eq_of_beq h.1]⟩

theorem replaceCore_id (pat : List Char)
    (hpat : ∃ w, pat = btChar :: btChar :: btChar :: w) :
    ∀ (l : List Char), (btRun l 0).isSome = true →
      ∀ fuel, replaceCore pat [] fuel l = l := by
  intro l
  induction l with
  | nil =>
    intro _ fuel
    cases fuel with
    | zero => rfl
    | succ f => rfl
  | cons c t ih =>
    intro h fuel
    cases fuel with
    | zero => rfl
    | succ f =>
      have hnp : pat.isPrefixOf (c :: t) = false := by
        cases hb : pat.isPrefixOf (c :: t)
        · rfl
        · exfalso
          obtain ⟨u, hu⟩ := isPrefixOf_true pat (c :: t) hb
          obtain ⟨w, rfl⟩ := hpat
          rw [← hu] at h
          rw [show (btChar :: btChar :: btChar :: w) ++ u =
            btChar :: btChar :: btChar :: (w ++ u) from rfl] at h
          rw [btRun_triple] at h
          simp at h
      rw [replaceCore, if_neg (by simp [hnp])]
      rw [ih (btRun_tail h) f]

theorem pyReplace_fencePy_id (l : List Char) (h : (btRun l 0).isSome = true) :
    pyReplace fencePy [] l = l :=
  replaceCore_id fencePy ⟨['p', 'y', 't', 'h', 'o', 'n'], rfl⟩ l h (l.length + 1)

theorem pyReplace_fence3_id (l : List Char) (h : (btRun l 0).isSome = true) :
    pyReplace fence3 [] l = l :=
  replaceCore_id fence3 ⟨[], rfl⟩ l h (l.length + 1)

theorem hexDigitCh_not_bt : ∀ d, d < 16 → hexDigitCh d ≠ btChar := by decide

theorem hex4Of_not_bt (n : Nat) : ∀ x ∈ hex4Of n, x ≠ btChar := by
  intro x hx
  rw [hex4Of] at hx
  simp only [List.not_mem_nil, or_false, List.mem_cons] at hx
  rcases hx with rfl | rfl | rfl | rfl <;>
    exact hexDigitCh_not_bt _ (Nat.mod_lt _ (by omega))

theorem digit_not_bt {c : Char} (h : isDigitCh c = true) : c ≠ btChar := by
  intro hc
  rw [hc] at h
  exact absurd h (by decide)

theorem escCh_not_bt (c : Char) (hc : c ≠ btChar) : ∀ x ∈ escCh c, x ≠ btChar := by
  intro x hx
  rw [escCh] at hx
  split_ifs at hx with h1 h2 h3 h4 h5 h6 h7 h8 h9
  · simp only [List.not_mem_nil, or_false, List.mem_cons] at hx
    rcases hx with rfl | rfl <;> decide
  · simp only [List.not_mem_nil, or_false, List.mem_cons] at hx
    rcases hx with rfl | rfl <;> decide
  · simp only [List.not_mem_nil, or_false, List.mem_cons] at hx
    rcases hx with rfl | rfl <;> decide
  · simp only [List.not_mem_nil, or_false, List.mem_cons] at hx
    rcases hx with rfl | rfl <;> decide
  · simp only [List.not_mem_nil, or_false, List.mem_cons] at hx
    rcases hx with rfl | rfl <;> decide
  · simp only [List.not_mem_nil, or_false, List.mem_cons] at hx
    rcases hx with rfl | rfl <;> decide
  · simp only [List.not_mem_nil, or_false, List.mem_cons] at hx
    rcases hx with rfl | rfl <;> decide
  · simp only [List.not_mem_nil, or_false, List.mem_cons] at hx
    rw [hx]; exact hc
  · simp only [List.mem_cons] at hx
    rcases hx with rfl | rfl | hx
    · decide
    · decide
    · exact hex4Of_not_bt _ x hx
  · simp only [List.cons_append, List.mem_cons, List.mem_append] at hx
    rcases hx with rfl | rfl | hx | rfl | rfl | hx
    · decide
    · decide
    · exact hex4Of_not_bt _ x hx
    · decide
    · decide
    · exact hex4Of_not_bt _ x hx

theorem btRun_no_bt_val : ∀ (l : List Char), l ≠ [] → (∀ x ∈ l, x ≠ btChar) →
    ∀ k, btRun l k = some 0 := by
  intro l
  induction l with
  | nil => intro h; exact absurd rfl h
  | cons c t ih =>
    intro _ hall k
    rw [btRun, if_neg (hall c (by simp))]
    cases t with
    | nil => rfl
    | cons d u => exact ih (by simp) (fun x hx => hall x (by simp [hx])) 0

theorem escCh_btChar : escCh btChar = [btChar] := by decide

theorem btRun_escBody (l : List Char) : ∀ k, btRun (escBody l) k = btRun l k := by
  induction l with
  | nil => intro k; rfl
  | cons c t ih =>
    intro k
    have hflat : escBody (c :: t) = escCh c ++ escBody t := by
      rw [escBody, escBody, List.flatMap_cons]
    rw [hflat, btRun_append]
    by_cases hc : c = btChar
    · subst hc
      rw [escCh_btChar]
      by_cases hk : 2 ≤ k
      · rw [show btRun [btChar] k = none from by rw [btRun, if_pos rfl, if_pos hk]]
        rw [show btRun (btChar :: t) k = none from by rw [btRun, if_pos rfl, if_pos hk]]
        rfl
      · rw [show btRun [btChar] k = some (k + 1) from by
          rw [btRun, if_pos rfl, if_neg hk]; rfl]
        show btRun (escBody t) (k + 1) = _
        rw [ih (k + 1), btRun, if_pos rfl, if_neg hk]
    · have hne : escCh c ≠ [] := List.length_pos.mp (escCh_length_pos c)
      rw [btRun_no_bt_val (escCh c) hne (escCh_not_bt c hc) k]
      show btRun (escBody t) 0 = btRun (c :: t) k
      rw [ih 0, btRun, if_neg hc]

theorem btSeg_quoteStr (s : String) (h : (btRun s.data 0).isSome = true) :
    btSeg (quoteStr s) := by
  have hshape : quoteStr s = '"' :: (escBody s.data ++ ['"']) := by
    rw [quoteStr]; simp
  rw [hshape]
  refine ⟨(by decide : ('"' : Char) ≠ btChar), ?_⟩
  rw [btRun, if_neg (by decide), btRun_append, btRun_escBody]
  obtain ⟨v, hv⟩ := Option.isSome_iff_exists.mp h
  rw [hv]
  show (btRun ['"'] v).isSome = true
  rw [btRun, if_neg (by decide)]
  rfl

theorem intChars_not_bt (i : Int) : ∀ x ∈ intChars i, x ≠ btChar := by
  intro x hx
  rw [intChars] at hx
  rcases List.mem_append.mp hx with hx1 | hx2
  · by_cases hi : i < 0
    · rw [if_pos hi] at hx1
      simp only [List.not_mem_nil, or_false, List.mem_cons] at hx1
      rw [hx1]; decide
    · rw [if_neg hi] at hx1
      simp at hx1
  · exact digit_not_bt (decDigits_all_digits i.natAbs x hx2)

theorem btSeg_primChars (v : Prim) (h : primBtOk v = true) : btSeg (primChars v) := by
  cases v with
  | null => exact btSeg_of_no_bt (by decide)
  | boolv b => cases b <;> exact btSeg_of_no_bt (by decide)
  | intv n => exact btSeg_of_no_bt (intChars_not_bt n)
  | strv s => exact btSeg_quoteStr s h

theorem btSeg_flatItem (kv : String × Prim) (hk : (btRun kv.1.data 0).isSome = true)
    (hv : primBtOk kv.2 = true) : btSeg (flatItem kv) := by
  have hshape : flatItem kv =
      nlIndent 1 ++ (quoteStr kv.1 ++ ([':', ' '] ++ primChars kv.2)) := by
    rw [flatItem]; simp
  rw [hshape]
  exact btSeg_append (btSeg_of_no_bt (by decide))
    (btSeg_append (btSeg_quoteStr kv.1 hk)
      (btSeg_append (btSeg_of_no_bt (by decide)) (btSeg_primChars kv.2 hv)))

theorem flatBody_single (kv : String × Prim) : flatBody [kv] = flatItem kv := by
  simp [flatBody, List.intercalate]

theorem flatBody_cons (kv kv2 : String × Prim) (rest : List (String × Prim)) :
    flatBody (kv :: kv2 :: rest) = flatItem kv ++ ([','] ++ flatBody (kv2 :: rest)) := by
  simp [flatBody, List.intercalate, List.intersperse]

theorem btSeg_flatBody : ∀ (m : List (String × Prim)),
    (∀ kv ∈ m, (btRun kv.1.data 0).isSome = true ∧ primBtOk kv.2 = true) →
    btSeg (flatBody m) := by
  intro m
  induction m with
  | nil => intro _; exact ⟨trivial, rfl⟩
  | cons kv rest ih =>
    intro hall
    have hkv := hall kv (by simp)
    cases rest with
    | nil =>
      rw [flatBody_single]
      exact btSeg_flatItem kv hkv.1 hkv.2
    | cons kv2 rest2 =>
      rw [flatBody_cons]
      exact btSeg_append (btSeg_flatItem kv hkv.1 hkv.2)
        (btSeg_append (btSeg_of_no_bt (by decide))
          (ih (fun x hx => hall x (List.mem_cons_of_mem kv hx))))

theorem printedFlat_btOk (m : List (String × Prim))
    (hall : ∀ kv ∈ m, (btRun kv.1.data 0).isSome = true ∧ primBtOk kv.2 = true) :
    (btRun (printedFlat m) 0).isSome = true := by
  cases m with
  | nil => rfl
  | cons kv rest =>
    have hshape : printedFlat (kv :: rest) =
        ['{'] ++ (flatBody (kv :: rest) ++ (['\n'] ++ ['}'])) := by
      rw [printedFlat]; simp [nlIndent]
    rw [hshape]
    exact (btSeg_append (btSeg_of_no_bt (by decide))
      (btSeg_append (btSeg_flatBody _ hall)
        (btSeg_append (btSeg_of_no_bt (by decide)) (btSeg_of_no_bt (by decide))))).2

theorem pyStrip_brace (mid : List Char) :
    pyStrip ('{' :: (mid ++ ['}'])) = '{' :: (mid ++ ['}']) := by
  rw [pyStrip]
  have h2 : ('{' :: (mid ++ ['}'])).reverse = '}' :: (mid.reverse ++ ['{']) := by
    simp
  rw [List.dropWhile_cons, if_neg (by decide), h2,
    List.dropWhile_cons, if_neg (by decide), ← h2, List.reverse_reverse]

/-! ### C1, part 5: the serializer on a flat primitive mapping -/

theorem pyDepth_toData (v : Prim) : pyDepth (Prim.toData v) = 0 := by
  cases v <;> rfl

theorem pyDepthKvs_prim : ∀ m : List (String × Prim),
    pyDepthKvs (m.map (fun kv => (kv.1, kv.2.toData))) = 0 := by
  intro m
  induction m with
  | nil => rfl
  | cons kv rest ih =>
    rw [List.map_cons, pyDepthKvs, ih, pyDepth_toData]
    rfl

theorem serializeVal_prim (f lvl : Nat) (v : Prim) :
    serializeVal (f + 1) lvl (Prim.toData v) = .ok (primChars v) := by
  cases v with
  | null => rfl
  | boolv b => cases b <;> rfl
  | intv n => rfl
  | strv s => rfl

theorem exceptMap_flat (f : Nat) : ∀ m : List (String × Prim),
    exceptMap (fun kv =>
        match serializeVal (f + 1) (0 + 1) kv.2 with
        | Except.error e => Except.error e
        | Except.ok v => Except.ok (nlIndent (0 + 1) ++ quoteStr kv.1 ++ ':' :: ' ' :: v))
      (m.map (fun kv => (kv.1, kv.2.toData))) = .ok (m.map flatItem) := by
  intro m
  induction m with
  | nil => rfl
  | cons kv rest ih =>
    simp only [List.map_cons, exceptMap, serializeVal_prim, ih]
    simp [flatItem]

theorem serializeVal_dictOfPrim (fuel : Nat) (hf : 2 ≤ fuel) (m : List (String × Prim)) :
    serializeVal fuel 0 (dictOfPrim m) = .ok (printedFlat m) := by
  obtain ⟨f1, rfl⟩ := existsSucc (show 0 < fuel by omega)
  obtain ⟨f, rfl⟩ := existsSucc (show 0 < f1 by omega)
  cases m with
  | nil => rfl
  | cons kv rest =>
    simp only [dictOfPrim, List.map_cons, serializeVal]
    rw [show ((kv.1, kv.2.toData) :: List.map (fun kv : String × Prim => (kv.1, kv.2.toData)) rest)
        = List.map (fun kv : String × Prim => (kv.1, kv.2.toData)) (kv :: rest) from rfl,
      exceptMap_flat f (kv :: rest)]
    rfl

theorem dumps_dictOfPrim (m : List (String × Prim)) :
    dumps (dictOfPrim m) = .ok (String.mk (printedFlat m)) := by
  have hd : pyDepth (dictOfPrim m) = 1 := by
    rw [dictOfPrim, pyDepth, pyDepthKvs_prim]
  rw [dumps, hd, serializeVal_dictOfPrim (1 + 1) (by omega) m]

theorem dict_to_string_flat (m : List (String × Prim)) :
    Utils.dict_to_string (dictOfPrim m) = String.mk (printedFlat m) := by
  rw [Utils.dict_to_string, dumps_dictOfPrim]

/-! ### C1, part 6: the parser on the printed flat mapping, and the claim -/

theorem strMk_data (s : String) : String.mk s.data = s := rfl

theorem jSkipWs_not_ws {c : Char} (h : isJsonWs c = false) (l : List Char) :
    jSkipWs (c :: l) = c :: l := by
  rw [jSkipWs, if_neg (by simp [h])]

theorem jSkipWs_ws {c : Char} (h : isJsonWs c = true) (l : List Char) :
    jSkipWs (c :: l) = jSkipWs l := by
  rw [jSkipWs, if_pos h]

theorem digit_not_ws {c : Char} (h : isDigitCh c = true) : isJsonWs c = false := by
  rcases isDigitCh_enum h with h9|h9|h9|h9|h9|h9|h9|h9|h9|h9 <;> subst h9 <;> rfl

theorem jSkipWs_primChars (v : Prim) (w : List Char) :
    jSkipWs (primChars v ++ w) = primChars v ++ w := by
  cases v with
  | null => exact jSkipWs_not_ws (by decide) _
  | boolv b => cases b <;> exact jSkipWs_not_ws (by decide) _
  | intv i =>
    by_cases hneg : i < 0
    · have hshape : primChars (Prim.intv i) ++ w = '-' :: (decDigits i.natAbs ++ w) := by
        simp [primChars, intChars, if_pos hneg]
      rw [hshape]
      exact jSkipWs_not_ws (by decide) _
    · have hshape : primChars (Prim.intv i) ++ w = decDigits i.natAbs ++ w := by
        simp [primChars, intChars, if_neg hneg]
      rw [hshape]
      cases hd : decDigits i.natAbs with
      | nil => exact absurd hd (decDigits_ne_nil _)
      | cons c t =>
        have hc : isDigitCh c = true := decDigits_all_digits _ c (by rw [hd]; simp)
        rw [List.cons_append]
        exact jSkipWs_not_ws (digit_not_ws hc) _
  | strv s =>
    have hshape : primChars (Prim.strv s) ++ w = '"' :: (escBody s.data ++ '"' :: w) := by
      simp [primChars, quoteStr]
    rw [hshape]
    exact jSkipWs_not_ws (by decide) _

theorem parseValue_prim (g : Nat) (v : Prim) (rest : List Char) (h : numStop rest = true) :
    parseValue (g + 1) (primChars v ++ rest) = .ok (Prim.toData v, rest) := by
  cases v with
  | null => rfl
  | boolv b => cases b <;> rfl
  | intv i =>
    have hdisp : parseValue (g + 1) (intChars i ++ rest) = parseNum (intChars i ++ rest) := by
      by_cases hneg : i < 0
      · have hshape : intChars i ++ rest = '-' :: (decDigits i.natAbs ++ rest) := by
          simp [intChars, if_pos hneg]
        rw [hshape]
        exact parseValue_num_dispatch g '-' _ (Or.inl rfl)
      · have hshape : intChars i ++ rest = decDigits i.natAbs ++ rest := by
          simp [intChars, if_neg hneg]
        rw [hshape]
        cases hd : decDigits i.natAbs with
        | nil => exact absurd hd (decDigits_ne_nil _)
        | cons c t =>
          have hc : isDigitCh c = true := decDigits_all_digits _ c (by rw [hd]; simp)
          rw [List.cons_append]
          exact parseValue_num_dispatch g c _ (Or.inr hc)
    rw [show primChars (Prim.intv i) = intChars i from rfl, hdisp, parseNum_intChars i rest h]
    rfl
  | strv s => exact parseValue_quoteStr s g rest

theorem flatMembersFrom_head : ∀ (m : List (String × Prim)) (rest : List Char), m ≠ [] →
    ∃ t, flatMembersFrom m rest = '"' :: t := by
  intro m rest hm
  match m with
  | [(k, v)] => exact ⟨_, rfl⟩
  | (k, v) :: kv2 :: m2 => exact ⟨_, rfl⟩
  | [] => exact absurd rfl hm

theorem flatBody_shape : ∀ (m : List (String × Prim)), m ≠ [] → ∀ (rest : List Char),
    flatBody m ++ '\n' :: '}' :: rest = '\n' :: ' ' :: ' ' :: flatMembersFrom m rest := by
  intro m
  induction m with
  | nil => intro hm; exact absurd rfl hm
  | cons kv m2 ih =>
    intro _ rest
    obtain ⟨k, v⟩ := kv
    cases m2 with
    | nil =>
      rw [flatBody_single]
      show flatItem (k, v) ++ '\n' :: '}' :: rest =
        '\n' :: ' ' :: ' ' :: flatMembersFrom [(k, v)] rest
      rw [show flatMembersFrom [(k, v)] rest =
        '"' :: (escBody k.data ++ '"' :: ':' :: ' ' :: (primChars v ++ '\n' :: '}' :: rest)) from rfl]
      simp [flatItem, nlIndent, quoteStr]
    | cons kv2 m3 =>
      rw [flatBody_cons]
      rw [show flatMembersFrom ((k, v) :: kv2 :: m3) rest =
        '"' :: (escBody k.data ++ '"' :: ':' :: ' ' ::
          (primChars v ++ ',' :: '\n' :: ' ' :: ' ' :: flatMembersFrom (kv2 :: m3) rest)) from rfl]
      rw [List.append_assoc, List.append_assoc, ih (by simp) rest]
      simp [flatItem, nlIndent, quoteStr]


theorem membersLoop_flat (g : Nat) :
    ∀ (m : List (String × Prim)) (fl : Nat) (rest : List Char),
      m ≠ [] → m.length ≤ fl →
      membersLoop (parseValue (g + 1)) fl (flatMembersFrom m rest) =
        .ok (m.map (fun kv => (kv.1, kv.2.toData)), rest) := by
  intro m
  induction m with
  | nil => intro fl rest hm _; exact absurd rfl hm
  | cons kv m2 ih =>
    intro fl rest _ hfl
    have hfl1 : 1 ≤ fl := Nat.le_trans (by simp) hfl
    obtain ⟨fl2, rfl⟩ := existsSucc (show 0 < fl by omega)
    obtain ⟨k, v⟩ := kv
    cases m2 with
    | nil =>
      rw [show flatMembersFrom [(k, v)] rest =
        '"' :: (escBody k.data ++ '"' :: ':' :: ' ' :: (primChars v ++ '\n' :: '}' :: rest)) from rfl]
      have hkey : parseStrAux
          ((escBody k.data ++ '"' :: ':' :: ' ' :: (primChars v ++ '\n' :: '}' :: rest)).length + 1)
          [] (escBody k.data ++ '"' :: ':' :: ' ' :: (primChars v ++ '\n' :: '}' :: rest))
          = .ok (k, ':' :: ' ' :: (primChars v ++ '\n' :: '}' :: rest)) := by
        rw [parseStrAux_escBody k.data _ [] _ (by
          have := escBody_length_ge k.data
          simp only [List.length_append, List.length_cons]
          omega)]
        simp [strMk_data]
      have h1 : jSkipWs (':' :: ' ' :: (primChars v ++ '\n' :: '}' :: rest)) =
          ':' :: ' ' :: (primChars v ++ '\n' :: '}' :: rest) := jSkipWs_not_ws (by decide) _
      have h2 : jSkipWs (' ' :: (primChars v ++ '\n' :: '}' :: rest)) =
          primChars v ++ '\n' :: '}' :: rest := by
        rw [jSkipWs_ws (by decide), jSkipWs_primChars]
      have h3 : parseValue (g + 1) (primChars v ++ '\n' :: '}' :: rest) =
          .ok (v.toData, '\n' :: '}' :: rest) := parseValue_prim g v _ (by rfl)
      have h4 : jSkipWs ('\n' :: '}' :: rest) = '}' :: rest := by
        rw [jSkipWs_ws (by decide), jSkipWs_not_ws (by decide)]
      simp only [membersLoop, hkey, h1, h2, h3, h4, List.map_cons, List.map_nil]
    | cons kv2 m3 =>
      rw [show flatMembersFrom ((k, v) :: kv2 :: m3) rest =
        '"' :: (escBody k.data ++ '"' :: ':' :: ' ' ::
          (primChars v ++ ',' :: '\n' :: ' ' :: ' ' :: flatMembersFrom (kv2 :: m3) rest)) from rfl]
      have hkey : parseStrAux
          ((escBody k.data ++ '"' :: ':' :: ' ' ::
            (primChars v ++ ',' :: '\n' :: ' ' :: ' ' :: flatMembersFrom (kv2 :: m3) rest)).length + 1)
          [] (escBody k.data ++ '"' :: ':' :: ' ' ::
            (primChars v ++ ',' :: '\n' :: ' ' :: ' ' :: flatMembersFrom (kv2 :: m3) rest))
          = .ok (k, ':' :: ' ' ::
            (primChars v ++ ',' :: '\n' :: ' ' :: ' ' :: flatMembersFrom (kv2 :: m3) rest)) := by
        rw [parseStrAux_escBody k.data _ [] _ (by
          have := escBody_length_ge k.data
          simp only [List.length_append, List.length_cons]
          omega)]
        simp [strMk_data]
      have h1 : jSkipWs (':' :: ' ' ::
          (primChars v ++ ',' :: '\n' :: ' ' :: ' ' :: flatMembersFrom (kv2 :: m3) rest)) =
          ':' :: ' ' :: (primChars v ++ ',' :: '\n' :: ' ' :: ' ' :: flatMembersFrom (kv2 :: m3) rest) :=
        jSkipWs_not_ws (by decide) _
      have h2 : jSkipWs (' ' ::
          (primChars v ++ ',' :: '\n' :: ' ' :: ' ' :: flatMembersFrom (kv2 :: m3) rest)) =
          primChars v ++ ',' :: '\n' :: ' ' :: ' ' :: flatMembersFrom (kv2 :: m3) rest := by
        rw [jSkipWs_ws (by decide), jSkipWs_primChars]
      have h3 : parseValue (g + 1)
          (primChars v ++ ',' :: '\n' :: ' ' :: ' ' :: flatMembersFrom (kv2 :: m3) rest) =
          .ok (v.toData, ',' :: '\n' :: ' ' :: ' ' :: flatMembersFrom (kv2 :: m3) rest) :=
        parseValue_prim g v _ (by rfl)
      have h4 : jSkipWs (',' :: '\n' :: ' ' :: ' ' :: flatMembersFrom (kv2 :: m3) rest) =
          ',' :: '\n' :: ' ' :: ' ' :: flatMembersFrom (kv2 :: m3) rest :=
        jSkipWs_not_ws (by decide) _
      obtain ⟨t2, ht2⟩ := flatMembersFrom_head (kv2 :: m3) rest (by simp)
      have h5 : jSkipWs ('\n' :: ' ' :: ' ' :: flatMembersFrom (kv2 :: m3) rest) =
          flatMembersFrom (kv2 :: m3) rest := by
        rw [jSkipWs_ws (by decide), jSkipWs_ws (by decide), jSkipWs_ws (by decide),
          ht2, jSkipWs_not_ws (by decide), ← ht2]
      have hrec := ih fl2 rest (by simp) (by simp only [List.length_cons] at hfl ⊢; omega)
      simp only [membersLoop, hkey, h1, h2, h3, h4, h5, hrec, List.map_cons]


theorem flatBody_length_ge : ∀ m : List (String × Prim), m.length ≤ (flatBody m).length := by
  intro m
  induction m with
  | nil => simp [flatBody, List.intercalate]
  | cons kv m2 ih =>
    cases m2 with
    | nil =>
      rw [flatBody_single]
      have h3 : 3 ≤ (flatItem kv).length := by
        simp only [flatItem, nlIndent, List.length_append, List.length_cons,
          List.length_replicate]
        omega
      simp only [List.length_cons, List.length_nil]
      omega
    | cons kv2 m3 =>
      rw [flatBody_cons]
      have h3 : 3 ≤ (flatItem kv).length := by
        simp only [flatItem, nlIndent, List.length_append, List.length_cons,
          List.length_replicate]
        omega
      simp only [List.length_append, List.length_cons] at ih ⊢
      omega

theorem parseValue_obj_nonempty (f : Nat) (r t2 : List Char)
    (hws2 : jSkipWs r = '"' :: t2) :
    parseValue (f + 1) ('{' :: r) =
      (match membersLoop (parseValue f) f ('"' :: t2) with
       | .ok (ms, r3) => .ok (.dictv ms, r3)
       | .error e => .error e) := by
  simp only [parseValue, hws2]
  rfl

theorem loadsL_printedFlat (m : List (String × Prim)) :
    loadsL (printedFlat m) = .ok (dictOfPrim m) := by
  cases m with
  | nil => rfl
  | cons kv m2 =>
    obtain ⟨t2, ht2⟩ := flatMembersFrom_head (kv :: m2) [] (by simp)
    have hpf : printedFlat (kv :: m2) = '{' :: (flatBody (kv :: m2) ++ nlIndent 0 ++ ['}']) := rfl
    have hr : (flatBody (kv :: m2) ++ nlIndent 0) ++ ['}'] =
        '\n' :: ' ' :: ' ' :: flatMembersFrom (kv :: m2) [] := by
      rw [List.append_assoc, show nlIndent 0 ++ ['}'] = '\n' :: '}' :: ([] : List Char) from rfl,
        flatBody_shape (kv :: m2) (by simp) []]
    have h0 : jSkipWs ('{' :: ((flatBody (kv :: m2) ++ nlIndent 0) ++ ['}'])) =
        '{' :: ((flatBody (kv :: m2) ++ nlIndent 0) ++ ['}']) := jSkipWs_not_ws (by decide) _
    have hws : jSkipWs ((flatBody (kv :: m2) ++ nlIndent 0) ++ ['}']) = '"' :: t2 := by
      rw [hr, jSkipWs_ws (by decide), jSkipWs_ws (by decide), jSkipWs_ws (by decide), ht2,
        jSkipWs_not_ws (by decide)]
    have hlen : (kv :: m2).length ≤ (((flatBody (kv :: m2) ++ nlIndent 0) ++ ['}'])).length + 1 := by
      have := flatBody_length_ge (kv :: m2)
      simp only [List.length_append, List.length_cons] at this ⊢
      omega
    have hloop := membersLoop_flat ((((flatBody (kv :: m2) ++ nlIndent 0) ++ ['}'])).length)
        (kv :: m2) ((((flatBody (kv :: m2) ++ nlIndent 0) ++ ['}'])).length + 1) []
        (by simp) hlen
    rw [ht2] at hloop
    rw [loadsL, hpf, h0, List.length_cons,
      parseValue_obj_nonempty ((flatBody (kv :: m2) ++ nlIndent 0 ++ ['}']).length + 1) _ t2 hws,
      hloop]
    rfl


theorem pyStrip_printedFlat (m : List (String × Prim)) :
    pyStrip (printedFlat m) = printedFlat m := by
  cases m with
  | nil => rfl
  | cons kv m2 =>
    have hsh : printedFlat (kv :: m2) =
        '{' :: ((flatBody (kv :: m2) ++ nlIndent 0) ++ ['}']) := rfl
    rw [hsh, pyStrip_brace]

/-- C1 (amended). The round-trip law holds on its intended scope with one
correction for the fence stripping of `string_to_dict`: for every flat
string-keyed mapping of serializable primitive values whose keys are
pairwise distinct and in which no key and no string value contains three
consecutive backticks, `string_to_dict (dict_to_string m) = m`. The
backtick restriction is necessary: `string_to_dict` deletes every
occurrence of the fences `'```python'` and `'```'` from its input before
parsing, including occurrences arising from the data itself. -/
theorem c1_amended_flat_round_trip (m : List (String × Prim))
    (_hnd : (m.map Prod.fst).Nodup)
    (hbt : ∀ kv ∈ m, (btRun kv.1.data 0).isSome = true ∧ primBtOk kv.2 = true) :
    Utils.string_to_dict (Utils.dict_to_string (dictOfPrim m)) = dictOfPrim m := by
  have hok := printedFlat_btOk m hbt
  have hstring : Utils.string_to_dict (String.mk (printedFlat m)) = dictOfPrim m := by
    rw [Utils.string_to_dict]
    show (match loadsL (pyStrip (pyReplace fence3 [] (pyReplace fencePy [] (printedFlat m)))) with
      | .ok v => v
      | .error e => PyData.dictv [("error", PyData.strv ("Invalid string format: " ++ e))])
      = dictOfPrim m
    rw [pyReplace_fencePy_id _ hok, pyReplace_fence3_id _ hok, pyStrip_printedFlat,
      loadsL_printedFlat]
  rw [dict_to_string_flat]
  exact hstring

/-- C1 (counterexample). The round-trip law as stated fails: for the
mapping `{"a": "```"}`, whose only value is a serializable primitive
string, `string_to_dict` deletes the `'```'` fence that `dict_to_string`
printed inside the quoted value, so the round trip returns `{"a": ""}`
instead of the original mapping. -/
theorem c1_counterexample_fence_value :
    Utils.string_to_dict (Utils.dict_to_string
        (dictOfPrim [("a", Prim.strv (String.mk [btChar, btChar, btChar]))]))
      ≠ dictOfPrim [("a", Prim.strv (String.mk [btChar, btChar, btChar]))] := by
  intro heq
  rw [show Utils.string_to_dict (Utils.dict_to_string
        (dictOfPrim [("a", Prim.strv (String.mk [btChar, btChar, btChar]))]))
      = PyData.dictv [("a", PyData.strv "")] from rfl] at heq
  rw [show dictOfPrim [("a", Prim.strv (String.mk [btChar, btChar, btChar]))]
      = PyData.dictv [("a", PyData.strv (String.mk [btChar, btChar, btChar]))] from rfl] at heq
  injection heq with h1
  injection h1 with h2 h3
  injection h2 with h4 h5
  injection h5 with h6
  exact absurd h6 (by decide)

/-- C1 (witness). The amended round trip at a concrete three-entry
mapping with a string, a negative integer and a boolean value. -/
theorem c1_witness :
    Utils.string_to_dict (Utils.dict_to_string
        (dictOfPrim [("a", Prim.strv "hi"), ("n", Prim.intv (-5)), ("b", Prim.boolv true)]))
      = dictOfPrim [("a", Prim.strv "hi"), ("n", Prim.intv (-5)), ("b", Prim.boolv true)] :=
  c1_amended_flat_round_trip _ (by decide) (by decide)

end Agentils
